import Mathlib

/-!
# A verification development for the GPML-to-graph translator

Shallow embedding of `graphs/util/gpml_util_interface.py`: the translator
that converts a GPML pathway document into a directed graph plus a layout
document and a title.

Conventions of the embedding:
* Python dictionaries built by successive `update` calls are modelled as
  association lists where a *later* binding shadows an earlier one
  (`lookupA` returns the last binding of a key).
* An XML element (`xml.etree.ElementTree.Element`) is a tag, an attribute
  mapping and an ordered list of children.
* The `graphspace_interface` helper module is part of the repository but its
  source is not in the snapshot; its operations are modelled from the spec
  (each such definition carries a `Modelled from the spec:` doc comment).
  The graph object itself is the `networkx.DiGraph` created in `parse_gpml`:
  a node set carrying attribute mappings plus a set of directed edges in
  which parallel edges collapse, and whose `add_edge` inserts absent
  endpoints as fresh attribute-less nodes.
* Numeric constants passed to the interface (`border_width=2`, opacity `0`)
  are carried as their decimal strings; the float conversion performed by
  `set_gpml_layout` is value-level only, so layout entries keep the raw
  coordinate strings.
* A Python function that can either return the graph, return an
  `{'Error': msg}` dictionary, or raise an uncaught exception (KeyError) is
  embedded as a `PResult` / `GpmlOut` sum.
-/

/-- Attribute mapping: association list where the last binding of a key wins,
matching a Python dict built by successive `update` calls. -/
abbrev AttrMap := List (String × String)

/-- Last-binding-wins lookup in an attribute mapping. -/
def lookupA : AttrMap → String → Option String
  | [], _ => none
  | (k, v) :: rest, key =>
    match lookupA rest key with
    | some v2 => some v2
    | none => if k = key then some v else none

/-- Python's `key in dict`. -/
def hasKeyA (m : AttrMap) (k : String) : Bool :=
  (lookupA m k).isSome

/-- An XML element: tag, own attributes, ordered children. -/
inductive XmlElem where
  | mk (tag : String) (attrib : AttrMap) (children : List XmlElem)

def XmlElem.tag : XmlElem → String
  | .mk t _ _ => t

def XmlElem.attrib : XmlElem → AttrMap
  | .mk _ a _ => a

def XmlElem.children : XmlElem → List XmlElem
  | .mk _ _ c => c

/-- The GPML namespace prefix used for every tag match (module constant
`GPML` in the source). -/
def GPML : String := "\x7bhttp://pathvisio.org/GPML/2013a\x7d"

/-- `graph_gpml.findall(GPML+'Tag')`: the direct children carrying the
namespaced tag. -/
def findall (e : XmlElem) (t : String) : List XmlElem :=
  e.children.filter (fun c => c.tag == GPML ++ t)

/-- `_extract_attributes` applied to one element: overlay the element's own
attributes with each child's attributes, later children shadowing. -/
def flattenElem (e : XmlElem) : AttrMap :=
  e.attrib ++ (e.children.map XmlElem.attrib).flatten

/-- `_extract_attributes`: one flattened mapping per element. -/
def extract_attributes (nodes : List XmlElem) : List AttrMap :=
  nodes.map flattenElem

/-- The directed graph built by the translator: ordered node list with
per-node style attributes, plus directed edges.  Mirrors the
`networkx.DiGraph` created at the top of `parse_gpml`: node identities are
unique, and at most one edge is stored per ordered pair. -/
structure Graph where
  nodes : List (String × AttrMap)
  edges : List (String × String)
deriving DecidableEq

def Graph.empty : Graph := ⟨[], []⟩

/-- The node identities currently in the graph. -/
def nodeIds (g : Graph) : List String :=
  g.nodes.map Prod.fst

/-- Python's `node_id in G` on a NetworkX graph: node membership. -/
def containsNode (g : Graph) (nid : String) : Bool :=
  (nodeIds g).contains nid

/-- First entry of a node list carrying the given identity (empty when
absent). -/
def findAttrs : List (String × AttrMap) → String → AttrMap
  | [], _ => []
  | p :: rest, n => if p.1 = n then p.2 else findAttrs rest n

/-- The attribute mapping attached to a node (empty when absent). -/
def attrsOf (g : Graph) (nid : String) : AttrMap :=
  findAttrs g.nodes nid

/-- Append one style binding to a node's attributes (the single primitive
behind every `interface.add_node_*` styling call: NetworkX stores node
attributes in a per-node dictionary, so a repeated key is shadowed by the
newer binding). -/
def setNodeAttr (g : Graph) (nid k v : String) : Graph :=
  { g with nodes := g.nodes.map (fun p => if p.1 = nid then (p.1, p.2 ++ [(k, v)]) else p) }

/-- Modelled from the spec: `interface.add_node` — "add node with initial
styling"; a repeated identity keeps the node and overwrites the supplied
styling keys (§3: a repeated identity silently overwrites the earlier
node's styling; keys not resupplied survive in the NetworkX attribute
dictionary). -/
def add_node (g : Graph) (nid : String) (attrs : AttrMap) : Graph :=
  if containsNode g nid then
    { g with nodes := g.nodes.map (fun p => if p.1 = nid then (p.1, p.2 ++ attrs) else p) }
  else
    { g with nodes := g.nodes ++ [(nid, attrs)] }

/-- Modelled from the spec: `interface.add_edge` — add a directed adjacency
between two node identities.  Follows the `networkx.DiGraph` the driver
creates: an absent endpoint is inserted as a fresh node without attributes,
and inserting an already-present ordered pair is a no-op (a `DiGraph` holds
at most one edge per ordered pair). -/
def addNodeIfAbsent (g : Graph) (n : String) : Graph :=
  if containsNode g n then g else { g with nodes := g.nodes ++ [(n, [])] }

def add_edge (g : Graph) (s t : String) : Graph :=
  let g2 := addNodeIfAbsent (addNodeIfAbsent g s) t
  if g2.edges.contains (s, t) then g2 else { g2 with edges := g2.edges ++ [(s, t)] }

/-- Result of a sub-parser: the graph, an `{'Error': msg}` dictionary, or an
uncaught Python exception (KeyError). -/
inductive PResult where
  | ok (g : Graph)
  | err (msg : String)
  | exc
deriving DecidableEq

/-- Apply one optional styling attribute: the `if 'Key' in node:` pattern of
`update_node_graphics`. -/
def condSet (g : Graph) (gid key : String) : Option String → Graph
  | some v => setNodeAttr g gid key v
  | none => g

/-- The tail of `update_node_graphics` after the coordinates are set: the
optional graphic attributes in source order, the fill colour defaulting to
white, and the unconditional background opacity 0. -/
def applyGraphics (g : Graph) (gid : String) (node : AttrMap) : Graph :=
  let g := condSet g gid "height" (lookupA node "Height")
  let g := condSet g gid "width" (lookupA node "Width")
  let g := condSet g gid "text_halign" (lookupA node "Align")
  let g := condSet g gid "text_valign" (lookupA node "Valign")
  let g := condSet g gid "content" (lookupA node "TextLabel")
  let g := condSet g gid "font_size" (lookupA node "FontSize")
  let g := condSet g gid "border_width" (lookupA node "LineThickness")
  let g := condSet g gid "border_color" ((lookupA node "Color").map (fun v => "#" ++ v))
  let g := match lookupA node "FillColor" with
           | some v => setNodeAttr g gid "background_color" ("#" ++ v)
           | none => setNodeAttr g gid "background_color" "white"
  setNodeAttr g gid "background_opacity" "0"

/-- `update_node_graphics`: requires `CenterX`+`CenterY` (else returns the
missing-coordinates error dictionary *before any mutation*), then sets x, y
and the remaining graphics via `applyGraphics`.  The function reads
`node['GraphId']` itself; a missing `GraphId` would raise (unreachable from
the callers, which check it first). -/
def update_node_graphics (g : Graph) (node : AttrMap) : PResult :=
  match lookupA node "GraphId" with
  | none => .exc
  | some gid =>
    match lookupA node "CenterX", lookupA node "CenterY" with
    | some cx, some cy =>
      .ok (applyGraphics (setNodeAttr (setNodeAttr g gid "x" cx) gid "y" cy) gid node)
    | _, _ =>
      .err ("GPML file must contain X and Y coordinates of all the node type elements! Value for "
        ++ gid ++ " missing")

/-- Python's `str.lower()` restricted to the ASCII letters that occur in
GPML shape keywords, written over the character list so that the kernel can
evaluate it. -/
def pyLower (s : String) : String :=
  String.mk (s.data.map Char.toLower)

/-- The `ShapeType` dispatch inside `parse_shapes` (lines 125–146): casefold,
remap the GPML vocabulary, reject the unsupported shapes, default to
`rectangle` when the key is absent. -/
def shapeStep (g : Graph) (gid : String) : Option String → PResult
  | some st0 =>
    let st := pyLower st0
    if st = "brace" ∨ st = "arc" then .ok (setNodeAttr g gid "shape" "rectangle")
    else if st = "oval" then .ok (setNodeAttr g gid "shape" "ellipse")
    else if st = "roundedrectangle" then .ok (setNodeAttr g gid "shape" "roundrectangle")
    else if st = "mitochondria" then .ok (setNodeAttr g gid "shape" "ellipse")
    else if st = "mim-degradation" ∨ st = "none" ∨ st = "mim-phosphorylated" then
      .err ("The shape " ++ st ++ " is not supported")
    else .ok (setNodeAttr g gid "shape" st)
  | none => .ok (setNodeAttr g gid "shape" "rectangle")

/-- The loop body of `parse_shapes` over the flattened shape mappings.
After a successful `update_node_graphics` the source re-checks
`'Error' in G` and returns the graph early when a node of that name
exists. -/
def parse_shapes_go (g : Graph) : List AttrMap → PResult
  | [] => .ok g
  | node :: rest =>
    match lookupA node "GraphId" with
    | none => .err "GPML file must contain GraphId for all shape elements!"
    | some gid =>
      let g := add_node g gid []
      match update_node_graphics g node with
      | .err m => .err m
      | .exc => .exc
      | .ok g =>
        if containsNode g "Error" then .ok g
        else
          match shapeStep g gid (lookupA node "ShapeType") with
          | .err m => .err m
          | .exc => .exc
          | .ok g =>
            let g := if lookupA node "key" = some "org.pathvisio.DoubleLineProperty" then
                       setNodeAttr g gid "border_style" "double"
                     else g
            parse_shapes_go g rest

/-- `parse_shapes`. -/
def parse_shapes (g : Graph) (root : XmlElem) : PResult :=
  parse_shapes_go g (extract_attributes (findall root "Shape"))

/-- The `GroupRef` scan of `parse_datanodes`: walk every node of the graph
and, for each whose stored `group_id` equals the reference, set the current
node's parent to it (a later match shadows an earlier one). -/
def attachParent (g : Graph) (gid gref : String) : Graph :=
  g.nodes.foldl
    (fun acc p => if lookupA p.2 "group_id" = some gref then setNodeAttr acc gid "parent" p.1 else acc)
    g

/-- The tail of one `parse_datanodes` iteration after a successful
`update_node_graphics`: the unconditional white fill and zero opacity, then
the `GroupRef` scan. -/
def datanodeFinish (g : Graph) (gid : String) (node : AttrMap) : Graph :=
  match lookupA node "GroupRef" with
  | some gref =>
      attachParent (setNodeAttr (setNodeAttr g gid "background_color" "white")
        gid "background_opacity" "0") gid gref
  | none =>
      setNodeAttr (setNodeAttr g gid "background_color" "white") gid "background_opacity" "0"

/-- The loop body of `parse_datanodes`. -/
def parse_datanodes_go (g : Graph) : List AttrMap → PResult
  | [] => .ok g
  | node :: rest =>
    match lookupA node "GraphId" with
    | none => .err "GPML file must contain GraphId for all datanode elements!"
    | some gid =>
      let g := add_node g gid [("shape", "rectangle"), ("border_width", "2")]
      match update_node_graphics g node with
      | .err m => .err m
      | .exc => .exc
      | .ok g =>
        if containsNode g "Error" then .ok g
        else parse_datanodes_go (datanodeFinish g gid node) rest

/-- `parse_datanodes`. -/
def parse_datanodes (g : Graph) (root : XmlElem) : PResult :=
  parse_datanodes_go g (extract_attributes (findall root "DataNode"))

/-- The loop body of `parse_labels`.  The source calls
`update_node_graphics` but discards its return value: on a missing
coordinate the error dictionary is dropped, no mutation has happened, and
the loop simply continues, so the label node stays in the graph without
coordinates. -/
def parse_labels_go (g : Graph) : List AttrMap → PResult
  | [] => .ok g
  | node :: rest =>
    match lookupA node "GraphId" with
    | none => .err "GPML file must contain GraphId for all lable elements!"
    | some gid =>
      let g := add_node g gid [("border_color", "#FFFFFF")]
      let g := match update_node_graphics g node with
               | .ok g2 => g2
               | _ => g
      if containsNode g "Error" then .ok g
      else parse_labels_go g rest

/-- `parse_labels`. -/
def parse_labels (g : Graph) (root : XmlElem) : PResult :=
  parse_labels_go g (extract_attributes (findall root "Label"))

/-- The loop body of `parse_groups`.  Group attributes are read from the
element itself (no flattening); `group.attrib['GroupId']` is an unguarded
dictionary index, so a group without a `GroupId` raises KeyError. -/
def groupSetup (g : Graph) (gid grpid : String) : Graph :=
  let g := setNodeAttr g gid "group_id" grpid
  let g := setNodeAttr g gid "background_color" "white"
  setNodeAttr g gid "border_color" "black"

def parse_groups_go (g : Graph) : List XmlElem → PResult
  | [] => .ok g
  | gr :: rest =>
    match lookupA gr.attrib "GraphId" with
    | none => .err "GPML file must contain GraphId for all group elements!"
    | some gid =>
      let g := add_node g gid []
      match lookupA gr.attrib "GroupId" with
      | none => .exc
      | some grpid => parse_groups_go (groupSetup g gid grpid) rest

/-- `parse_groups`. -/
def parse_groups (g : Graph) (root : XmlElem) : PResult :=
  parse_groups_go g (findall root "Group")

/-- `point['GraphRef']` guarded access used by the interaction loop. -/
def getA (m : AttrMap) (k : String) : String :=
  (lookupA m k).getD ""

/-- The per-interaction extraction (first loop of `parse_interactions`):
flatten the interaction's own attributes with each nested layer's
attributes, and collect every nested layer's child point mappings in order.
When the interaction has no nested layer at all, the `'points'` key is
never set and the second loop's `edge['points']` raises KeyError; that is
recorded as `none`. -/
def interactionRecord (e : XmlElem) : AttrMap × Option (List AttrMap) :=
  (e.attrib ++ (e.children.map XmlElem.attrib).flatten,
   match e.children with
   | [] => none
   | _ => some ((e.children.map (fun c => c.children.map XmlElem.attrib)).flatten))

/-- Result of building the `edges` dictionary. -/
inductive EdgesResult where
  | ok (d : List (String × List AttrMap))
  | err (msg : String)
  | exc
deriving DecidableEq

/-- Python dict insertion for the `edges` dictionary keyed by the
interaction's `GraphId`: an existing key keeps its position and gets the
new value. -/
def dictInsert : List (String × List AttrMap) → String → List AttrMap →
    List (String × List AttrMap)
  | [], k, v => [(k, v)]
  | p :: rest, k, v => if p.1 = k then (k, v) :: rest else p :: dictInsert rest k v

/-- Second loop of `parse_interactions`: `edges[edge['GraphId']] = points`.
The `edge['points']` access happens before the `GraphId` check, so a
point-less interaction raises before a missing identity is reported. -/
def buildEdgesDict (d : List (String × List AttrMap)) :
    List (AttrMap × Option (List AttrMap)) → EdgesResult
  | [] => .ok d
  | (attrs, pts) :: rest =>
    match pts with
    | none => .exc
    | some ps =>
      match lookupA attrs "GraphId" with
      | none => .err "GPML file must contain GraphId for all interaction elements!"
      | some gid => buildEdgesDict (dictInsert d gid ps) rest

/-- Third loop of `parse_interactions`: two-point interactions need both
endpoint references (a missing one is caught by the bare `except` before
`add_edge` runs); three-point interactions try the pairs (0,1), (0,2),
(1,2) in that order; any other point count adds nothing. -/
def edgeLoop (g : Graph) : List (String × List AttrMap) → PResult
  | [] => .ok g
  | (eid, pts) :: rest =>
    match pts with
    | [p0, p1] =>
      match lookupA p0 "GraphRef", lookupA p1 "GraphRef" with
      | some a, some b => edgeLoop (add_edge g a b) rest
      | _, _ =>
        .err ("GPML file must contain GraphRef for all interaction elements! Value for "
          ++ eid ++ " missing")
    | [p0, p1, p2] =>
      if hasKeyA p0 "GraphRef" && hasKeyA p1 "GraphRef" then
        edgeLoop (add_edge g (getA p0 "GraphRef") (getA p1 "GraphRef")) rest
      else if hasKeyA p0 "GraphRef" && hasKeyA p2 "GraphRef" then
        edgeLoop (add_edge g (getA p0 "GraphRef") (getA p2 "GraphRef")) rest
      else if hasKeyA p1 "GraphRef" && hasKeyA p2 "GraphRef" then
        edgeLoop (add_edge g (getA p1 "GraphRef") (getA p2 "GraphRef")) rest
      else
        .err ("GPML file must contain GraphRef for all interaction elements! Value for "
          ++ eid ++ " missing")
    | _ => edgeLoop g rest

/-- `parse_interactions`. -/
def parse_interactions (g : Graph) (root : XmlElem) : PResult :=
  match buildEdgesDict [] ((findall root "Interaction").map interactionRecord) with
  | .exc => .exc
  | .err m => .err m
  | .ok d => edgeLoop g d

/-- One layout record `{'id': .., 'x': .., 'y': ..}`; the coordinate values
keep the raw strings that `float` merely converts. -/
structure LayoutEntry where
  id : String
  x : String
  y : String
deriving DecidableEq

/-- `set_gpml_layout`: one entry per node carrying both coordinates, in
graph node order. -/
def set_gpml_layout (g : Graph) : List LayoutEntry :=
  g.nodes.filterMap (fun p =>
    match lookupA p.2 "x", lookupA p.2 "y" with
    | some xv, some yv => some ⟨p.1, xv, yv⟩
    | _, _ => none)

/-- What `parse_gpml` returns.
* `success g layout title` stands for `(convertNXToDict(G), json.dumps(layout), title)`;
* `errorReturn m` stands for `({'Error': m}, "", "")`;
* `graphReturn g` stands for `(G, "", "")` — the early return taken when the
  graph itself contains a node named `Error`;
* `exception` stands for an uncaught KeyError. -/
inductive GpmlOut where
  | success (g : Graph) (layout : List LayoutEntry) (title : String)
  | errorReturn (msg : String)
  | graphReturn (g : Graph)
  | exception
deriving DecidableEq

/-- The driver's per-stage pattern `G = parse_x(G, ..); if 'Error' in G:
return G, "", ""`.  On the error dictionary the key test succeeds and the
dictionary is returned; on a graph the same expression tests node
membership. -/
def stepCheck (r : PResult) (k : Graph → GpmlOut) : GpmlOut :=
  match r with
  | .exc => .exception
  | .err m => .errorReturn m
  | .ok g => if containsNode g "Error" then .graphReturn g else k g

/-- `parse_gpml`: the driver.  Stages run in the fixed order
Groups → Shapes → DataNodes → Labels → Interactions; then the layout is
extracted and the title resolved: `graph_gpml.attrib['Name']` is an
unguarded index (KeyError when the root has no `Name`), `Name or "GPML"`
replaces only an *empty* name, and a non-empty caller title wins. -/
def parse_gpml (root : XmlElem) (title : String) : GpmlOut :=
  stepCheck (parse_groups Graph.empty root) fun g =>
  stepCheck (parse_shapes g root) fun g =>
  stepCheck (parse_datanodes g root) fun g =>
  stepCheck (parse_labels g root) fun g =>
  stepCheck (parse_interactions g root) fun g =>
    let layout := set_gpml_layout g
    match lookupA root.attrib "Name" with
    | none => .exception
    | some nm =>
      let mtitle := if nm = "" then "GPML" else nm
      .success g layout (if title = "" then mtitle else title)

/-- Both coordinates present on a node. -/
def nodeHasXY (g : Graph) (n : String) : Bool :=
  hasKeyA (attrsOf g n) "x" && hasKeyA (attrsOf g n) "y"


/-- The `GraphId` values declared by the node-type elements (Groups read
their own attributes, the other kinds their flattened mappings). -/
def declaredIds (root : XmlElem) : List String :=
  (((findall root "Group").map XmlElem.attrib)
      ++ extract_attributes (findall root "Shape")
      ++ extract_attributes (findall root "DataNode")
      ++ extract_attributes (findall root "Label")).filterMap
    (fun m => lookupA m "GraphId")

/-- The shape-keyword table exactly as the claim words it, written
independently of `shapeStep` for comparison: from the casefolded
`ShapeType`, `brace`/`arc` map to `rectangle`, `oval`/`mitochondria` to
`ellipse`, `roundedrectangle` to `roundrectangle`; `mim-degradation`,
`none` and `mim-phosphorylated` are unsupported; anything else passes
through; a missing key defaults to `rectangle`. -/
def claimedShapeKeyword : Option String → Except String String
  | none => .ok "rectangle"
  | some s =>
    let st := pyLower s
    if st ∈ ["mim-degradation", "none", "mim-phosphorylated"] then .error st
    else if st ∈ ["brace", "arc"] then .ok "rectangle"
    else if st ∈ ["oval", "mitochondria"] then .ok "ellipse"
    else if st = "roundedrectangle" then .ok "roundrectangle"
    else .ok st

/-- A Group and a coordinate-less Label: both survive translation without
coordinates. -/
def c1doc : XmlElem :=
  .mk "Pathway" [("Name", "t")]
    [.mk (GPML ++ "Group") [("GraphId", "g1"), ("GroupId", "r")] [],
     .mk (GPML ++ "Label") [("GraphId", "l1")] []]

/-- One declared Shape and one Interaction whose second endpoint reference
names no declared element. -/
def c2doc : XmlElem :=
  .mk "Pathway" [("Name", "t")]
    [.mk (GPML ++ "Shape") [("GraphId", "A")]
       [.mk "Graphics" [("CenterX", "1"), ("CenterY", "2")] []],
     .mk (GPML ++ "Interaction") [("GraphId", "i1")]
       [.mk "Graphics" []
          [.mk "Point" [("GraphRef", "A")] [], .mk "Point" [("GraphRef", "B")] []]]]

/-- Two Groups sharing the group identifier `r`, then a DataNode with
`GroupRef=r`. -/
def c4doc : XmlElem :=
  .mk "Pathway" [("Name", "t")]
    [.mk (GPML ++ "Group") [("GraphId", "g1"), ("GroupId", "r")] [],
     .mk (GPML ++ "Group") [("GraphId", "g2"), ("GroupId", "r")] [],
     .mk (GPML ++ "DataNode") [("GraphId", "d"), ("GroupRef", "r")]
       [.mk "Graphics" [("CenterX", "5"), ("CenterY", "6")] []]]

/-- A single Group carrying the group identifier `r`, then a DataNode with
`GroupRef=r`: the unique-group instance of the containment scenario. -/
def c4okdoc : XmlElem :=
  .mk "Pathway" [("Name", "t")]
    [.mk (GPML ++ "Group") [("GraphId", "g1"), ("GroupId", "r")] [],
     .mk (GPML ++ "DataNode") [("GraphId", "d"), ("GroupRef", "r")]
       [.mk "Graphics" [("CenterX", "5"), ("CenterY", "6")] []]]

/-- Two distinct Interactions that both resolve to the ordered pair
`(A, B)`. -/
def c8doc : XmlElem :=
  .mk "Pathway" [("Name", "t")]
    [.mk (GPML ++ "Shape") [("GraphId", "A")]
       [.mk "Graphics" [("CenterX", "1"), ("CenterY", "2")] []],
     .mk (GPML ++ "Shape") [("GraphId", "B")]
       [.mk "Graphics" [("CenterX", "3"), ("CenterY", "4")] []],
     .mk (GPML ++ "Interaction") [("GraphId", "i1")]
       [.mk "Graphics" []
          [.mk "Point" [("GraphRef", "A")] [], .mk "Point" [("GraphRef", "B")] []]],
     .mk (GPML ++ "Interaction") [("GraphId", "i2")]
       [.mk "Graphics" []
          [.mk "Point" [("GraphRef", "A")] [], .mk "Point" [("GraphRef", "B")] []]]]

/-- The styling keys `update_node_graphics` can write. -/
def graphicsKeys : List String :=
  ["x", "y", "height", "width", "text_halign", "text_valign", "content",
   "font_size", "border_width", "border_color", "background_color", "background_opacity"]

/-- `Sets ks g g'`: `g'` differs from `g` only by appending style bindings
whose keys lie in `ks` to existing nodes — node list shape, edges, and every
binding of a key outside `ks` are unchanged, and nothing is removed. -/
def Sets (ks : List String) (g g' : Graph) : Prop :=
  g'.edges = g.edges ∧
  List.Forall₂
    (fun p q => p.1 = q.1 ∧ (∃ ext, q.2 = p.2 ++ ext) ∧
      ∀ k, k ∉ ks → lookupA q.2 k = lookupA p.2 k)
    g.nodes g'.nodes

/-- The styling keys each sub-parser can write. -/
def groupsKeys : List String := ["group_id", "background_color", "border_color"]

def shapesKeys : List String := graphicsKeys ++ ["shape", "border_style"]

def datanodesKeys : List String :=
  graphicsKeys ++ ["shape", "border_width", "background_color", "background_opacity", "parent"]

def labelsKeys : List String := graphicsKeys ++ ["border_color"]

/-- `Grows ks g g'`: the stage-level growth relation — nodes and edges only
accumulate, attribute keys are never removed, and bindings of keys outside
`ks` are untouched (also on nodes the stage creates, which start without
them). -/
def Grows (ks : List String) (g g' : Graph) : Prop :=
  (∀ x, x ∈ nodeIds g → x ∈ nodeIds g') ∧
  (∀ p, p ∈ g.edges → p ∈ g'.edges) ∧
  (∀ n k, hasKeyA (attrsOf g n) k = true → hasKeyA (attrsOf g' n) k = true) ∧
  (∀ n k, k ∉ ks → lookupA (attrsOf g' n) k = lookupA (attrsOf g n) k)

/-- Every edge's endpoints are nodes (holds for every graph the pipeline
builds, since `add_edge` inserts absent endpoints). -/
def EdgesClosed (g : Graph) : Prop :=
  ∀ p, p ∈ g.edges → p.1 ∈ nodeIds g ∧ p.2 ∈ nodeIds g

/-- What one pass of the interaction edge loop guarantees: closure is kept,
the graph only grows without touching attributes, and the new node
identities are exactly the endpoints of the newly added edges. -/
def InteractionsPost (g g' : Graph) : Prop :=
  EdgesClosed g' ∧ Grows ([] : List String) g g' ∧
  ∀ x, x ∈ nodeIds g' ↔
    x ∈ nodeIds g ∨ ∃ p, p ∈ g'.edges ∧ p ∉ g.edges ∧ (x = p.1 ∨ x = p.2)

/-- The entry-level view the `GroupRef` scan of `parse_datanodes` depends
on: each node entry together with its stored `group_id` binding, in graph
order. -/
def nodesGid (g : Graph) : List (String × Option String) :=
  g.nodes.map (fun p => (p.1, lookupA p.2 "group_id"))

/-! ## Lemmas: attribute mappings -/

theorem lookupA_append (m l : AttrMap) (k : String) :
    lookupA (m ++ l) k = (lookupA l k).or (lookupA m k) := by
  induction m with
  | nil =>
    simp only [List.nil_append, lookupA]
    cases lookupA l k <;> rfl
  | cons p rest ih =>
    obtain ⟨k0, v0⟩ := p
    simp only [List.cons_append, lookupA, ih]
    cases hl : lookupA l k <;> cases hr : lookupA rest k <;> simp [Option.or, ih, hl, hr]

theorem lookupA_snoc (m : AttrMap) (k v k' : String) :
    lookupA (m ++ [(k, v)]) k' = if k = k' then some v else lookupA m k' := by
  rw [lookupA_append]
  by_cases h : k = k' <;> simp [lookupA, h, Option.or]

theorem lookupA_append_of_none {l : AttrMap} {k : String} (m : AttrMap)
    (h : lookupA l k = none) : lookupA (m ++ l) k = lookupA m k := by
  rw [lookupA_append, h]
  cases lookupA m k <;> rfl

theorem hasKeyA_append_left {m : AttrMap} {k : String} (l : AttrMap)
    (h : hasKeyA m k = true) : hasKeyA (m ++ l) k = true := by
  simp only [hasKeyA, lookupA_append]
  simp only [hasKeyA] at h
  cases hl : lookupA l k <;> cases hm : lookupA m k <;> simp_all [Option.or]

theorem hasKeyA_snoc (m : AttrMap) (k v k' : String) :
    hasKeyA (m ++ [(k, v)]) k' = if k = k' then true else hasKeyA m k' := by
  simp only [hasKeyA, lookupA_snoc]
  by_cases h : k = k' <;> simp [h]

/-! ## Lemmas: graph primitives -/

theorem containsNode_iff {g : Graph} {n : String} :
    containsNode g n = true ↔ n ∈ nodeIds g := by
  simp [containsNode]

theorem edges_setNodeAttr (g : Graph) (n k v : String) :
    (setNodeAttr g n k v).edges = g.edges := rfl

theorem edges_add_node (g : Graph) (n : String) (a : AttrMap) :
    (add_node g n a).edges = g.edges := by
  unfold add_node
  split <;> rfl

theorem edges_addNodeIfAbsent (g : Graph) (n : String) :
    (addNodeIfAbsent g n).edges = g.edges := by
  unfold addNodeIfAbsent
  split <;> rfl

theorem map_fst_update (ns : List (String × AttrMap)) (n : String) (f : AttrMap → AttrMap) :
    (ns.map (fun p => if p.1 = n then (p.1, f p.2) else p)).map Prod.fst = ns.map Prod.fst := by
  induction ns with
  | nil => rfl
  | cons p t ih =>
    simp only [List.map_cons, ih, List.cons.injEq]
    refine ⟨?_, trivial⟩
    by_cases h : p.1 = n <;> simp [h]

theorem nodeIds_setNodeAttr (g : Graph) (n k v : String) :
    nodeIds (setNodeAttr g n k v) = nodeIds g :=
  map_fst_update g.nodes n (fun m => m ++ [(k, v)])

theorem nodeIds_add_node (g : Graph) (n : String) (a : AttrMap) :
    nodeIds (add_node g n a) = if containsNode g n then nodeIds g else nodeIds g ++ [n] := by
  unfold add_node
  by_cases h : containsNode g n
  · rw [if_pos h, if_pos h]
    exact map_fst_update g.nodes n (fun m => m ++ a)
  · rw [if_neg h, if_neg h]
    simp [nodeIds]

theorem mem_nodeIds_add_node {x : String} (g : Graph) (n : String) (a : AttrMap) :
    x ∈ nodeIds (add_node g n a) ↔ x ∈ nodeIds g ∨ x = n := by
  rw [nodeIds_add_node]
  by_cases h : containsNode g n
  · rw [if_pos h]
    constructor
    · exact Or.inl
    · rintro (hx | rfl)
      · exact hx
      · exact containsNode_iff.1 h
  · rw [if_neg h]
    simp

theorem mem_nodeIds_addNodeIfAbsent {x : String} (g : Graph) (n : String) :
    x ∈ nodeIds (addNodeIfAbsent g n) ↔ x ∈ nodeIds g ∨ x = n := by
  unfold addNodeIfAbsent
  by_cases h : containsNode g n
  · rw [if_pos h]
    constructor
    · exact Or.inl
    · rintro (hx | rfl)
      · exact hx
      · exact containsNode_iff.1 h
  · rw [if_neg h]
    simp [nodeIds]

theorem findAttrs_map_update_self (ns : List (String × AttrMap)) (n : String)
    (f : AttrMap → AttrMap) (h : n ∈ ns.map Prod.fst) :
    findAttrs (ns.map (fun p => if p.1 = n then (p.1, f p.2) else p)) n = f (findAttrs ns n) := by
  induction ns with
  | nil => simp at h
  | cons p t ih =>
    by_cases hp : p.1 = n
    · simp [findAttrs, hp]
    · have h' : n ∈ t.map Prod.fst := by
        simp only [List.map_cons, List.mem_cons] at h
        exact h.resolve_left (fun hh => hp hh.symm)
      simp [findAttrs, hp, ih h']

theorem findAttrs_map_update_ne (ns : List (String × AttrMap)) (n : String)
    (f : AttrMap → AttrMap) (n' : String) (h : n' ≠ n) :
    findAttrs (ns.map (fun p => if p.1 = n then (p.1, f p.2) else p)) n' = findAttrs ns n' := by
  induction ns with
  | nil => rfl
  | cons p t ih =>
    have hnn : n ≠ n' := fun hh => h hh.symm
    by_cases hp : p.1 = n
    · have hq : p.1 ≠ n' := fun hh => hnn (hp ▸ hh)
      simp [findAttrs, hp, hq, ih, hnn]
    · by_cases hq : p.1 = n' <;> simp [findAttrs, hp, hq, ih, h, hnn]

theorem findAttrs_eq_nil_of_not_mem (ns : List (String × AttrMap)) (n : String)
    (h : n ∉ ns.map Prod.fst) : findAttrs ns n = [] := by
  induction ns with
  | nil => rfl
  | cons p t ih =>
    simp only [List.map_cons, List.mem_cons] at h
    push_neg at h
    have hne : p.1 ≠ n := fun hh => h.1 hh.symm
    simp [findAttrs, hne, ih h.2]

theorem findAttrs_append (ns ms : List (String × AttrMap)) (n : String) :
    findAttrs (ns ++ ms) n =
      if n ∈ ns.map Prod.fst then findAttrs ns n else findAttrs ms n := by
  induction ns with
  | nil => simp [findAttrs]
  | cons p t ih =>
    by_cases hp : p.1 = n
    · simp [findAttrs, hp]
    · have hne : n ≠ p.1 := fun hh => hp hh.symm
      simp only [List.cons_append, findAttrs, if_neg hp, ih, List.map_cons]
      by_cases hm : n ∈ t.map Prod.fst <;> simp [List.mem_cons, hm, hne, ih]

theorem attrsOf_setNodeAttr_self (g : Graph) (n k v : String) (h : n ∈ nodeIds g) :
    attrsOf (setNodeAttr g n k v) n = attrsOf g n ++ [(k, v)] :=
  findAttrs_map_update_self g.nodes n (fun m => m ++ [(k, v)]) h

theorem attrsOf_setNodeAttr_ne (g : Graph) (n k v n' : String) (h : n' ≠ n) :
    attrsOf (setNodeAttr g n k v) n' = attrsOf g n' :=
  findAttrs_map_update_ne g.nodes n (fun m => m ++ [(k, v)]) n' h

theorem attrsOf_add_node_self (g : Graph) (n : String) (a : AttrMap) :
    attrsOf (add_node g n a) n = attrsOf g n ++ a := by
  unfold add_node
  by_cases h : containsNode g n
  · rw [if_pos h]
    exact findAttrs_map_update_self g.nodes n (fun m => m ++ a) (containsNode_iff.1 h)
  · rw [if_neg h]
    have h' : n ∉ g.nodes.map Prod.fst := fun hm => h (containsNode_iff.2 hm)
    show findAttrs (g.nodes ++ [(n, a)]) n = attrsOf g n ++ a
    rw [findAttrs_append, if_neg h']
    rw [show attrsOf g n = findAttrs g.nodes n from rfl, findAttrs_eq_nil_of_not_mem _ _ h']
    simp [findAttrs]

theorem attrsOf_add_node_ne (g : Graph) (n : String) (a : AttrMap) (n' : String) (h : n' ≠ n) :
    attrsOf (add_node g n a) n' = attrsOf g n' := by
  unfold add_node
  by_cases h1 : containsNode g n
  · rw [if_pos h1]
    exact findAttrs_map_update_ne g.nodes n (fun m => m ++ a) n' h
  · rw [if_neg h1]
    show findAttrs (g.nodes ++ [(n, a)]) n' = attrsOf g n'
    rw [findAttrs_append]
    by_cases hm : n' ∈ g.nodes.map Prod.fst
    · rw [if_pos hm]; rfl
    · rw [if_neg hm]
      rw [show attrsOf g n' = findAttrs g.nodes n' from rfl,
        findAttrs_eq_nil_of_not_mem _ _ hm]
      have hne : n ≠ n' := fun hh => h hh.symm
      simp [findAttrs, hne]

theorem attrsOf_edges_set (g : Graph) (e : List (String × String)) (n : String) :
    attrsOf { g with edges := e } n = attrsOf g n := rfl

theorem attrsOf_addNodeIfAbsent (g : Graph) (m n : String) :
    attrsOf (addNodeIfAbsent g m) n = attrsOf g n := by
  unfold addNodeIfAbsent
  by_cases h : containsNode g m
  · rw [if_pos h]
  · rw [if_neg h]
    show findAttrs (g.nodes ++ [(m, [])]) n = attrsOf g n
    rw [findAttrs_append]
    by_cases hm : n ∈ g.nodes.map Prod.fst
    · rw [if_pos hm]; rfl
    · rw [if_neg hm]
      rw [show attrsOf g n = findAttrs g.nodes n from rfl,
        findAttrs_eq_nil_of_not_mem _ _ hm]
      by_cases hmn : m = n <;> simp [findAttrs, hmn]

theorem attrsOf_add_edge (g : Graph) (s t n : String) :
    attrsOf (add_edge g s t) n = attrsOf g n := by
  simp only [add_edge]
  split <;> simp [attrsOf_edges_set, attrsOf_addNodeIfAbsent]

theorem mem_nodeIds_add_edge {x : String} (g : Graph) (s t : String) :
    x ∈ nodeIds (add_edge g s t) ↔ x ∈ nodeIds g ∨ x = s ∨ x = t := by
  simp only [add_edge]
  have hn : ∀ e, nodeIds { addNodeIfAbsent (addNodeIfAbsent g s) t with edges := e } =
      nodeIds (addNodeIfAbsent (addNodeIfAbsent g s) t) := fun _ => rfl
  split <;> simp [hn, mem_nodeIds_addNodeIfAbsent, or_assoc]

theorem mem_edges_add_edge (g : Graph) (s t : String) (p : String × String) :
    p ∈ (add_edge g s t).edges ↔ p ∈ g.edges ∨ p = (s, t) := by
  simp only [add_edge]
  have he : (addNodeIfAbsent (addNodeIfAbsent g s) t).edges = g.edges := by
    rw [edges_addNodeIfAbsent, edges_addNodeIfAbsent]
  split <;> rename_i h
  · rw [he] at h ⊢
    constructor
    · exact Or.inl
    · rintro (hp | rfl)
      · exact hp
      · exact List.elem_iff.1 h
  · simp [he]

/-! ## Lemmas: the Sets relation -/

theorem forall2_trans_of {α : Type} {R : α → α → Prop}
    (hR : ∀ a b c, R a b → R b c → R a c) :
    ∀ {l1 l2 l3 : List α}, List.Forall₂ R l1 l2 → List.Forall₂ R l2 l3 →
      List.Forall₂ R l1 l3 := by
  intro l1 l2 l3 h12 h23
  induction h12 generalizing l3 with
  | nil =>
    cases h23
    exact .nil
  | cons hab h ih =>
    cases h23 with
    | cons hbc h' => exact .cons (hR _ _ _ hab hbc) (ih h')

theorem forall2_map_fst {R : (String × AttrMap) → (String × AttrMap) → Prop}
    (hR : ∀ p q, R p q → p.1 = q.1) {l1 l2 : List (String × AttrMap)}
    (h : List.Forall₂ R l1 l2) : l2.map Prod.fst = l1.map Prod.fst := by
  induction h with
  | nil => rfl
  | cons hpq _ ih => simp [ih, hR _ _ hpq]

theorem Sets_refl (ks : List String) (g : Graph) : Sets ks g g := by
  refine ⟨rfl, ?_⟩
  induction g.nodes with
  | nil => exact List.Forall₂.nil
  | cons p t ih => exact List.Forall₂.cons ⟨rfl, ⟨[], by simp⟩, fun _ _ => rfl⟩ ih

theorem Sets_trans {ks : List String} {g g1 g2 : Graph}
    (h1 : Sets ks g g1) (h2 : Sets ks g1 g2) : Sets ks g g2 := by
  obtain ⟨he1, hf1⟩ := h1
  obtain ⟨he2, hf2⟩ := h2
  refine ⟨he2.trans he1, ?_⟩
  refine forall2_trans_of ?_ hf1 hf2
  rintro a b c ⟨hab1, ⟨e1, hab2⟩, hab3⟩ ⟨hbc1, ⟨e2, hbc2⟩, hbc3⟩
  refine ⟨hab1.trans hbc1, ⟨e1 ++ e2, by rw [hbc2, hab2, List.append_assoc]⟩, ?_⟩
  intro k hk
  rw [hbc3 k hk, hab3 k hk]

theorem Sets_nodeIds {ks : List String} {g g' : Graph} (h : Sets ks g g') :
    nodeIds g' = nodeIds g :=
  forall2_map_fst (fun _ _ hpq => hpq.1) h.2

theorem forall2_findAttrs {ks : List String} {l1 l2 : List (String × AttrMap)}
    (hf : List.Forall₂
      (fun p q => p.1 = q.1 ∧ (∃ ext, q.2 = p.2 ++ ext) ∧
        ∀ k, k ∉ ks → lookupA q.2 k = lookupA p.2 k) l1 l2) (n : String) :
    (∃ ext, findAttrs l2 n = findAttrs l1 n ++ ext) ∧
      (∀ k, k ∉ ks → lookupA (findAttrs l2 n) k = lookupA (findAttrs l1 n) k) := by
  induction hf with
  | nil => exact ⟨⟨[], by simp [findAttrs]⟩, fun _ _ => rfl⟩
  | @cons p q t1 t2 hpq _ ih =>
    by_cases hn : p.1 = n
    · have hq1 : q.1 = n := hpq.1 ▸ hn
      rw [findAttrs, findAttrs, if_pos hn, if_pos hq1]
      exact ⟨hpq.2.1, hpq.2.2⟩
    · have hq1 : ¬ q.1 = n := hpq.1 ▸ hn
      rw [findAttrs, findAttrs, if_neg hn, if_neg hq1]
      exact ih

theorem Sets_attrs {ks : List String} {g g' : Graph} (h : Sets ks g g') (n : String) :
    (∃ ext, attrsOf g' n = attrsOf g n ++ ext) ∧
      (∀ k, k ∉ ks → lookupA (attrsOf g' n) k = lookupA (attrsOf g n) k) :=
  forall2_findAttrs h.2 n

theorem Sets_hasKey_mono {ks : List String} {g g' : Graph} (h : Sets ks g g')
    {n k : String} (hk : hasKeyA (attrsOf g n) k = true) :
    hasKeyA (attrsOf g' n) k = true := by
  obtain ⟨⟨ext, hext⟩, -⟩ := Sets_attrs h n
  rw [hext]
  exact hasKeyA_append_left _ hk

theorem Sets_nodeHasXY_mono {ks : List String} {g g' : Graph} (h : Sets ks g g')
    {n : String} (hxy : nodeHasXY g n = true) : nodeHasXY g' n = true := by
  simp only [nodeHasXY, Bool.and_eq_true] at *
  exact ⟨Sets_hasKey_mono h hxy.1, Sets_hasKey_mono h hxy.2⟩

theorem Sets_lookup_preserved {ks : List String} {g g' : Graph} (h : Sets ks g g')
    {k : String} (hk : k ∉ ks) (n : String) :
    lookupA (attrsOf g' n) k = lookupA (attrsOf g n) k :=
  (Sets_attrs h n).2 k hk

theorem Sets_edges {ks : List String} {g g' : Graph} (h : Sets ks g g') :
    g'.edges = g.edges := h.1

theorem Sets_setNodeAttr {ks : List String} {k : String} (hk : k ∈ ks)
    (g : Graph) (nid v : String) : Sets ks g (setNodeAttr g nid k v) := by
  refine ⟨rfl, ?_⟩
  show List.Forall₂ _ g.nodes (g.nodes.map _)
  induction g.nodes with
  | nil => exact .nil
  | cons p t ih =>
    refine List.Forall₂.cons ?_ ih
    dsimp only
    by_cases hp : p.1 = nid
    · rw [if_pos hp]
      refine ⟨rfl, ⟨[(k, v)], rfl⟩, fun k' hk' => ?_⟩
      rw [lookupA_snoc, if_neg (fun h2 : k = k' => hk' (h2 ▸ hk))]
    · rw [if_neg hp]
      exact ⟨rfl, ⟨[], by simp⟩, fun _ _ => rfl⟩

theorem Sets_condSet {ks : List String} {key : String} (hk : key ∈ ks)
    (g : Graph) (gid : String) (o : Option String) :
    Sets ks g (condSet g gid key o) := by
  cases o with
  | none => exact Sets_refl ks g
  | some v => exact Sets_setNodeAttr hk g gid v

theorem Sets_widen {ks ks' : List String} {g g' : Graph} (hsub : ∀ k, k ∈ ks → k ∈ ks')
    (h : Sets ks g g') : Sets ks' g g' := by
  obtain ⟨he, hf⟩ := h
  refine ⟨he, ?_⟩
  refine List.Forall₂.imp ?_ hf
  rintro p q ⟨h1, h2, h3⟩
  exact ⟨h1, h2, fun k hk => h3 k (fun hm => hk (hsub k hm))⟩

/-! ## Lemmas: update_node_graphics -/

theorem applyGraphics_sets (g : Graph) (gid : String) (node : AttrMap) :
    Sets graphicsKeys g (applyGraphics g gid node) := by
  unfold applyGraphics
  apply Sets_trans (Sets_condSet (show "height" ∈ graphicsKeys by decide) g gid _)
  apply Sets_trans (Sets_condSet (show "width" ∈ graphicsKeys by decide) _ gid _)
  apply Sets_trans (Sets_condSet (show "text_halign" ∈ graphicsKeys by decide) _ gid _)
  apply Sets_trans (Sets_condSet (show "text_valign" ∈ graphicsKeys by decide) _ gid _)
  apply Sets_trans (Sets_condSet (show "content" ∈ graphicsKeys by decide) _ gid _)
  apply Sets_trans (Sets_condSet (show "font_size" ∈ graphicsKeys by decide) _ gid _)
  apply Sets_trans (Sets_condSet (show "border_width" ∈ graphicsKeys by decide) _ gid _)
  apply Sets_trans (Sets_condSet (show "border_color" ∈ graphicsKeys by decide) _ gid _)
  cases lookupA node "FillColor" <;>
    exact Sets_trans
      (Sets_setNodeAttr (show "background_color" ∈ graphicsKeys by decide) _ gid _)
      (Sets_setNodeAttr (show "background_opacity" ∈ graphicsKeys by decide) _ gid _)

theorem update_eq_ok {node : AttrMap} {gid cx cy : String} (g : Graph)
    (hG : lookupA node "GraphId" = some gid)
    (hx : lookupA node "CenterX" = some cx) (hy : lookupA node "CenterY" = some cy) :
    update_node_graphics g node =
      .ok (applyGraphics (setNodeAttr (setNodeAttr g gid "x" cx) gid "y" cy) gid node) := by
  unfold update_node_graphics
  rw [hG, hx, hy]

theorem update_eq_err {node : AttrMap} {gid : String} (g : Graph)
    (hG : lookupA node "GraphId" = some gid)
    (hxy : lookupA node "CenterX" = none ∨ lookupA node "CenterY" = none) :
    update_node_graphics g node =
      .err ("GPML file must contain X and Y coordinates of all the node type elements! Value for "
        ++ gid ++ " missing") := by
  unfold update_node_graphics
  rw [hG]
  rcases hxy with hx | hy
  · rw [hx]
  · rw [hy]
    cases hx2 : lookupA node "CenterX" <;> rfl

theorem update_node_graphics_ok {g : Graph} {node : AttrMap} {gid : String}
    (hG : lookupA node "GraphId" = some gid) {g' : Graph}
    (hok : update_node_graphics g node = .ok g') :
    Sets graphicsKeys g g' ∧
      hasKeyA node "CenterX" = true ∧ hasKeyA node "CenterY" = true ∧
      (gid ∈ nodeIds g → nodeHasXY g' gid = true) := by
  cases hx : lookupA node "CenterX" with
  | none =>
    rw [update_eq_err g hG (Or.inl hx)] at hok
    exact absurd hok (by simp)
  | some cx =>
    cases hy : lookupA node "CenterY" with
    | none =>
      rw [update_eq_err g hG (Or.inr hy)] at hok
      exact absurd hok (by simp)
    | some cy =>
      rw [update_eq_ok g hG hx hy] at hok
      injection hok with hh
      subst hh
      refine ⟨?_, by simp [hasKeyA, hx], by simp [hasKeyA, hy], ?_⟩
      · exact Sets_trans (Sets_setNodeAttr (show "x" ∈ graphicsKeys by decide) g gid cx)
          (Sets_trans (Sets_setNodeAttr (show "y" ∈ graphicsKeys by decide) _ gid cy)
            (applyGraphics_sets _ gid node))
      · intro hmem
        have hmem1 : gid ∈ nodeIds (setNodeAttr g gid "x" cx) := by
          rw [nodeIds_setNodeAttr]
          exact hmem
        have hxy2 : nodeHasXY (setNodeAttr (setNodeAttr g gid "x" cx) gid "y" cy) gid = true := by
          simp only [nodeHasXY, Bool.and_eq_true]
          constructor
          · rw [attrsOf_setNodeAttr_self _ _ _ _ hmem1]
            apply hasKeyA_append_left
            rw [attrsOf_setNodeAttr_self _ _ _ _ hmem, hasKeyA_snoc]
            simp
          · rw [attrsOf_setNodeAttr_self _ _ _ _ hmem1, hasKeyA_snoc]
            simp
        exact Sets_nodeHasXY_mono (applyGraphics_sets _ gid node) hxy2

/-! ## Lemmas: the Grows relation -/

theorem Grows_refl (ks : List String) (g : Graph) : Grows ks g g :=
  ⟨fun _ hx => hx, fun _ hp => hp, fun _ _ hk => hk, fun _ _ _ => rfl⟩

theorem Grows_trans {ks : List String} {g g1 g2 : Graph}
    (h1 : Grows ks g g1) (h2 : Grows ks g1 g2) : Grows ks g g2 :=
  ⟨fun x hx => h2.1 x (h1.1 x hx),
   fun p hp => h2.2.1 p (h1.2.1 p hp),
   fun n k hk => h2.2.2.1 n k (h1.2.2.1 n k hk),
   fun n k hk => (h2.2.2.2 n k hk).trans (h1.2.2.2 n k hk)⟩

theorem Grows_of_Sets {ks : List String} {g g' : Graph} (h : Sets ks g g') :
    Grows ks g g' :=
  ⟨fun x hx => by rw [Sets_nodeIds h]; exact hx,
   fun p hp => by rw [Sets_edges h]; exact hp,
   fun _ _ hk => Sets_hasKey_mono h hk,
   fun n k hk => Sets_lookup_preserved h hk n⟩

theorem Grows_add_node {ks : List String} {a : AttrMap}
    (ha : ∀ k, k ∉ ks → lookupA a k = none) (g : Graph) (n : String) :
    Grows ks g (add_node g n a) := by
  refine ⟨fun x hx => (mem_nodeIds_add_node g n a).2 (Or.inl hx),
    fun p hp => by rw [edges_add_node]; exact hp, ?_, ?_⟩
  · intro n' k hk
    by_cases hn : n' = n
    · subst hn
      rw [attrsOf_add_node_self]
      exact hasKeyA_append_left _ hk
    · rw [attrsOf_add_node_ne _ _ _ _ hn]
      exact hk
  · intro n' k hk
    by_cases hn : n' = n
    · subst hn
      rw [attrsOf_add_node_self, lookupA_append_of_none _ (ha k hk)]
    · rw [attrsOf_add_node_ne _ _ _ _ hn]

theorem Grows_add_edge (ks : List String) (g : Graph) (s t : String) :
    Grows ks g (add_edge g s t) :=
  ⟨fun x hx => (mem_nodeIds_add_edge g s t).2 (Or.inl hx),
   fun p hp => (mem_edges_add_edge g s t p).2 (Or.inl hp),
   fun n k hk => by rw [attrsOf_add_edge]; exact hk,
   fun n k _ => by rw [attrsOf_add_edge]⟩

theorem Sets_attachParent {ks : List String} (hk : "parent" ∈ ks)
    (g : Graph) (gid gref : String) : Sets ks g (attachParent g gid gref) := by
  unfold attachParent
  generalize g.nodes = l
  induction l generalizing g with
  | nil => exact Sets_refl ks g
  | cons p t ih =>
    rw [List.foldl_cons]
    refine Sets_trans ?_ (ih _)
    by_cases hp : lookupA p.2 "group_id" = some gref
    · rw [if_pos hp]
      exact Sets_setNodeAttr hk g gid p.1
    · rw [if_neg hp]
      exact Sets_refl ks g

/-! ## Lemmas: the Groups stage -/

theorem groupSetup_sets (g : Graph) (gid grp : String) :
    Sets groupsKeys g (groupSetup g gid grp) := by
  unfold groupSetup
  exact Sets_trans (Sets_setNodeAttr (show "group_id" ∈ groupsKeys by decide) _ gid _)
    (Sets_trans (Sets_setNodeAttr (show "background_color" ∈ groupsKeys by decide) _ gid _)
      (Sets_setNodeAttr (show "border_color" ∈ groupsKeys by decide) _ gid _))

theorem edges_groupSetup (g : Graph) (gid grp : String) :
    (groupSetup g gid grp).edges = g.edges := rfl

theorem nodeIds_groupSetup (g : Graph) (gid grp : String) :
    nodeIds (groupSetup g gid grp) = nodeIds g := by
  unfold groupSetup
  rw [nodeIds_setNodeAttr, nodeIds_setNodeAttr, nodeIds_setNodeAttr]

theorem groupSetup_group_id_self (g : Graph) (gid grp : String) (h : gid ∈ nodeIds g) :
    lookupA (attrsOf (groupSetup g gid grp) gid) "group_id" = some grp := by
  unfold groupSetup
  have h1 : gid ∈ nodeIds (setNodeAttr g gid "group_id" grp) := by
    rw [nodeIds_setNodeAttr]; exact h
  have h2 : gid ∈ nodeIds (setNodeAttr (setNodeAttr g gid "group_id" grp) gid
      "background_color" "white") := by
    rw [nodeIds_setNodeAttr]; exact h1
  rw [attrsOf_setNodeAttr_self _ _ _ _ h2, attrsOf_setNodeAttr_self _ _ _ _ h1,
    attrsOf_setNodeAttr_self _ _ _ _ h, lookupA_snoc, lookupA_snoc, lookupA_snoc]
  simp

theorem groupSetup_group_id_ne (g : Graph) (gid grp n : String) (hne : n ≠ gid) :
    lookupA (attrsOf (groupSetup g gid grp) n) "group_id" =
      lookupA (attrsOf g n) "group_id" := by
  unfold groupSetup
  rw [attrsOf_setNodeAttr_ne _ _ _ _ _ hne, attrsOf_setNodeAttr_ne _ _ _ _ _ hne,
    attrsOf_setNodeAttr_ne _ _ _ _ _ hne]

theorem parse_groups_go_ok {xs : List XmlElem} :
    ∀ {g g' : Graph}, parse_groups_go g xs = .ok g' →
      Grows groupsKeys g g' ∧ g'.edges = g.edges ∧
      (∀ x, x ∈ nodeIds g' ↔
        x ∈ nodeIds g ∨ ∃ e, e ∈ xs ∧ lookupA e.attrib "GraphId" = some x) := by
  induction xs with
  | nil =>
    intro g g' h
    simp only [parse_groups_go] at h
    injection h with hh
    subst hh
    exact ⟨Grows_refl _ _, rfl, fun x => by simp⟩
  | cons gr rest ih =>
    intro g g' h
    simp only [parse_groups_go] at h
    split at h
    · exact absurd h (by simp)
    · rename_i gid hG
      split at h
      · exact absurd h (by simp)
      · rename_i grp hGrp
        obtain ⟨hg1, he1, hn1⟩ := ih h
        have hstep : Grows groupsKeys g (groupSetup (add_node g gid []) gid grp) :=
          Grows_trans (Grows_add_node (fun k _ => (rfl : lookupA ([] : AttrMap) k = none)) g gid)
            (Grows_of_Sets (groupSetup_sets _ gid grp))
        refine ⟨Grows_trans hstep hg1, ?_, ?_⟩
        · rw [he1, edges_groupSetup, edges_add_node]
        · intro x
          rw [hn1 x, nodeIds_groupSetup, mem_nodeIds_add_node]
          constructor
          · rintro ((hx | rfl) | ⟨e, he, hge⟩)
            · exact Or.inl hx
            · exact Or.inr ⟨gr, List.mem_cons_self _ _, hG⟩
            · exact Or.inr ⟨e, List.mem_cons_of_mem _ he, hge⟩
          · rintro (hx | ⟨e, he, hge⟩)
            · exact Or.inl (Or.inl hx)
            · rcases List.mem_cons.1 he with rfl | he'
              · rw [hG] at hge
                injection hge with hge
                exact Or.inl (Or.inr hge.symm)
              · exact Or.inr ⟨e, he', hge⟩

/-! ## Lemmas: the Shapes stage -/

theorem Grows_nodeHasXY_mono {ks : List String} {g g' : Graph} (h : Grows ks g g')
    {n : String} (hxy : nodeHasXY g n = true) : nodeHasXY g' n = true := by
  simp only [nodeHasXY, Bool.and_eq_true] at *
  exact ⟨h.2.2.1 n "x" hxy.1, h.2.2.1 n "y" hxy.2⟩

theorem graphicsKeys_sub_shapesKeys : ∀ k, k ∈ graphicsKeys → k ∈ shapesKeys :=
  fun _ hk => List.mem_append_left _ hk

theorem shapeStep_ok_sets {g : Graph} {gid : String} {o : Option String} {g3 : Graph}
    (h : shapeStep g gid o = .ok g3) : Sets shapesKeys g g3 := by
  cases o with
  | none =>
    simp only [shapeStep] at h
    injection h with hh
    subst hh
    exact Sets_setNodeAttr (show "shape" ∈ shapesKeys by decide) _ gid _
  | some st0 =>
    simp only [shapeStep] at h
    repeat' split at h
    all_goals first
      | exact PResult.noConfusion h
      | (injection h with hh; subst hh;
         exact Sets_setNodeAttr (show "shape" ∈ shapesKeys by decide) _ gid _)

theorem parse_shapes_go_ok {xs : List AttrMap} :
    ∀ {g g' : Graph}, parse_shapes_go g xs = .ok g' → "Error" ∉ nodeIds g' →
      Grows shapesKeys g g' ∧ g'.edges = g.edges ∧
      (∀ x, x ∈ nodeIds g' ↔
        x ∈ nodeIds g ∨ ∃ m, m ∈ xs ∧ lookupA m "GraphId" = some x) ∧
      (∀ m, m ∈ xs → ∃ gid, lookupA m "GraphId" = some gid ∧
        hasKeyA m "CenterX" = true ∧ hasKeyA m "CenterY" = true ∧
        nodeHasXY g' gid = true) := by
  induction xs with
  | nil =>
    intro g g' h _
    simp only [parse_shapes_go] at h
    injection h with hh
    subst hh
    exact ⟨Grows_refl _ _, rfl, fun x => by simp, fun m hm => absurd hm (by simp)⟩
  | cons node rest ih =>
    intro g g' h hErr
    simp only [parse_shapes_go] at h
    split at h
    · exact absurd h (by simp)
    · rename_i gid hG
      split at h
      · exact absurd h (by simp)
      · exact absurd h (by simp)
      · rename_i g2 hupd
        split at h
        · rename_i hc
          injection h with hh
          subst hh
          exact absurd (containsNode_iff.1 hc) hErr
        · rename_i hc
          split at h
          · exact absurd h (by simp)
          · exact absurd h (by simp)
          · rename_i g3 hss
            obtain ⟨hsets2, hcx, hcy, hxy2⟩ := update_node_graphics_ok hG hupd
            obtain ⟨hg1, he1, hn1, hall⟩ := ih h hErr
            have hsets3 : Sets shapesKeys g2 g3 := shapeStep_ok_sets hss
            have hsets4 : Sets shapesKeys g3
                (if lookupA node "key" = some "org.pathvisio.DoubleLineProperty" then
                  setNodeAttr g3 gid "border_style" "double" else g3) := by
              split
              · exact Sets_setNodeAttr (show "border_style" ∈ shapesKeys by decide) _ gid _
              · exact Sets_refl _ _
            have hsets24 : Sets shapesKeys (add_node g gid []) _ :=
              Sets_trans (Sets_widen graphicsKeys_sub_shapesKeys hsets2)
                (Sets_trans hsets3 hsets4)
            have hstep : Grows shapesKeys g _ :=
              Grows_trans (Grows_add_node (fun k _ => (rfl : lookupA ([] : AttrMap) k = none)) g gid)
                (Grows_of_Sets hsets24)
            refine ⟨Grows_trans hstep hg1, ?_, ?_, ?_⟩
            · rw [he1, Sets_edges hsets24, edges_add_node]
            · intro x
              rw [hn1 x, Sets_nodeIds hsets24, mem_nodeIds_add_node]
              constructor
              · rintro ((hx | rfl) | ⟨m, hm, hgm⟩)
                · exact Or.inl hx
                · exact Or.inr ⟨node, List.mem_cons_self _ _, hG⟩
                · exact Or.inr ⟨m, List.mem_cons_of_mem _ hm, hgm⟩
              · rintro (hx | ⟨m, hm, hgm⟩)
                · exact Or.inl (Or.inl hx)
                · rcases List.mem_cons.1 hm with rfl | hm'
                  · rw [hG] at hgm
                    injection hgm with hgm
                    exact Or.inl (Or.inr hgm.symm)
                  · exact Or.inr ⟨m, hm', hgm⟩
            · intro m hm
              rcases List.mem_cons.1 hm with rfl | hm'
              · refine ⟨gid, hG, hcx, hcy, ?_⟩
                have hmem : gid ∈ nodeIds (add_node g gid []) :=
                  (mem_nodeIds_add_node g gid []).2 (Or.inr rfl)
                exact Grows_nodeHasXY_mono hg1
                  (Sets_nodeHasXY_mono hsets4 (Sets_nodeHasXY_mono hsets3 (hxy2 hmem)))
              · exact hall m hm'

/-! ## Lemmas: the DataNodes stage -/

theorem graphicsKeys_sub_datanodesKeys : ∀ k, k ∈ graphicsKeys → k ∈ datanodesKeys :=
  fun _ hk => List.mem_append_left _ hk

theorem datanodeFinish_sets (g : Graph) (gid : String) (node : AttrMap) :
    Sets datanodesKeys g (datanodeFinish g gid node) := by
  unfold datanodeFinish
  cases lookupA node "GroupRef" with
  | none =>
    exact Sets_trans
      (Sets_setNodeAttr (show "background_color" ∈ datanodesKeys by decide) g gid _)
      (Sets_setNodeAttr (show "background_opacity" ∈ datanodesKeys by decide) _ gid _)
  | some gref =>
    exact Sets_trans
      (Sets_setNodeAttr (show "background_color" ∈ datanodesKeys by decide) g gid _)
      (Sets_trans
        (Sets_setNodeAttr (show "background_opacity" ∈ datanodesKeys by decide) _ gid _)
        (Sets_attachParent (show "parent" ∈ datanodesKeys by decide) _ gid _))

theorem datanodeInitAttrs_none :
    ∀ k, k ∉ datanodesKeys →
      lookupA [("shape", "rectangle"), ("border_width", "2")] k = none := by
  intro k hk
  have h1 : "shape" ≠ k := fun hh => hk (hh ▸ show "shape" ∈ datanodesKeys by decide)
  have h2 : "border_width" ≠ k :=
    fun hh => hk (hh ▸ show "border_width" ∈ datanodesKeys by decide)
  simp [lookupA, h1, h2]

theorem parse_datanodes_go_ok {xs : List AttrMap} :
    ∀ {g g' : Graph}, parse_datanodes_go g xs = .ok g' → "Error" ∉ nodeIds g' →
      Grows datanodesKeys g g' ∧ g'.edges = g.edges ∧
      (∀ x, x ∈ nodeIds g' ↔
        x ∈ nodeIds g ∨ ∃ m, m ∈ xs ∧ lookupA m "GraphId" = some x) ∧
      (∀ m, m ∈ xs → ∃ gid, lookupA m "GraphId" = some gid ∧
        hasKeyA m "CenterX" = true ∧ hasKeyA m "CenterY" = true ∧
        nodeHasXY g' gid = true) := by
  induction xs with
  | nil =>
    intro g g' h _
    simp only [parse_datanodes_go] at h
    injection h with hh
    subst hh
    exact ⟨Grows_refl _ _, rfl, fun x => by simp, fun m hm => absurd hm (by simp)⟩
  | cons node rest ih =>
    intro g g' h hErr
    simp only [parse_datanodes_go] at h
    split at h
    · exact absurd h (by simp)
    · rename_i gid hG
      split at h
      · exact absurd h (by simp)
      · exact absurd h (by simp)
      · rename_i g2 hupd
        split at h
        · rename_i hc
          injection h with hh
          subst hh
          exact absurd (containsNode_iff.1 hc) hErr
        · rename_i hc
          obtain ⟨hsets2, hcx, hcy, hxy2⟩ := update_node_graphics_ok hG hupd
          obtain ⟨hg1, he1, hn1, hall⟩ := ih h hErr
          have hsets24 : Sets datanodesKeys
              (add_node g gid [("shape", "rectangle"), ("border_width", "2")])
              (datanodeFinish g2 gid node) :=
            Sets_trans (Sets_widen graphicsKeys_sub_datanodesKeys hsets2)
              (datanodeFinish_sets g2 gid node)
          have hstep : Grows datanodesKeys g (datanodeFinish g2 gid node) :=
            Grows_trans (Grows_add_node datanodeInitAttrs_none g gid)
              (Grows_of_Sets hsets24)
          refine ⟨Grows_trans hstep hg1, ?_, ?_, ?_⟩
          · rw [he1, Sets_edges hsets24, edges_add_node]
          · intro x
            rw [hn1 x, Sets_nodeIds hsets24, mem_nodeIds_add_node]
            constructor
            · rintro ((hx | rfl) | ⟨m, hm, hgm⟩)
              · exact Or.inl hx
              · exact Or.inr ⟨node, List.mem_cons_self _ _, hG⟩
              · exact Or.inr ⟨m, List.mem_cons_of_mem _ hm, hgm⟩
            · rintro (hx | ⟨m, hm, hgm⟩)
              · exact Or.inl (Or.inl hx)
              · rcases List.mem_cons.1 hm with rfl | hm'
                · rw [hG] at hgm
                  injection hgm with hgm
                  exact Or.inl (Or.inr hgm.symm)
                · exact Or.inr ⟨m, hm', hgm⟩
          · intro m hm
            rcases List.mem_cons.1 hm with rfl | hm'
            · refine ⟨gid, hG, hcx, hcy, ?_⟩
              have hmem : gid ∈ nodeIds (add_node g gid
                  [("shape", "rectangle"), ("border_width", "2")]) :=
                (mem_nodeIds_add_node g gid _).2 (Or.inr rfl)
              exact Grows_nodeHasXY_mono hg1
                (Sets_nodeHasXY_mono (datanodeFinish_sets g2 gid m) (hxy2 hmem))
            · exact hall m hm'

/-! ## Lemmas: the Labels stage -/

theorem graphicsKeys_sub_labelsKeys : ∀ k, k ∈ graphicsKeys → k ∈ labelsKeys :=
  fun _ hk => List.mem_append_left _ hk

theorem labelInitAttrs_none :
    ∀ k, k ∉ labelsKeys → lookupA [("border_color", "#FFFFFF")] k = none := by
  intro k hk
  have h1 : "border_color" ≠ k :=
    fun hh => hk (hh ▸ show "border_color" ∈ labelsKeys by decide)
  simp [lookupA, h1]

theorem parse_labels_go_ok {xs : List AttrMap} :
    ∀ {g g' : Graph}, parse_labels_go g xs = .ok g' → "Error" ∉ nodeIds g' →
      Grows labelsKeys g g' ∧ g'.edges = g.edges ∧
      (∀ x, x ∈ nodeIds g' ↔
        x ∈ nodeIds g ∨ ∃ m, m ∈ xs ∧ lookupA m "GraphId" = some x) := by
  induction xs with
  | nil =>
    intro g g' h _
    simp only [parse_labels_go] at h
    injection h with hh
    subst hh
    exact ⟨Grows_refl _ _, rfl, fun x => by simp⟩
  | cons node rest ih =>
    intro g g' h hErr
    simp only [parse_labels_go] at h
    split at h
    · exact absurd h (by simp)
    · rename_i gid hG
      cases hu : update_node_graphics (add_node g gid [("border_color", "#FFFFFF")]) node with
      | ok g2 =>
        rw [hu] at h
        try dsimp only at h
        have hsets12 : Sets labelsKeys (add_node g gid [("border_color", "#FFFFFF")]) g2 :=
          Sets_widen graphicsKeys_sub_labelsKeys (update_node_graphics_ok hG hu).1
        have hstep : Grows labelsKeys g g2 :=
          Grows_trans (Grows_add_node labelInitAttrs_none g gid) (Grows_of_Sets hsets12)
        split at h
        · rename_i hc
          injection h with hh
          subst hh
          exact absurd (containsNode_iff.1 hc) hErr
        · obtain ⟨hg1, he1, hn1⟩ := ih h hErr
          refine ⟨Grows_trans hstep hg1, ?_, ?_⟩
          · rw [he1, Sets_edges hsets12, edges_add_node]
          · intro x
            rw [hn1 x, Sets_nodeIds hsets12, mem_nodeIds_add_node]
            constructor
            · rintro ((hx | rfl) | ⟨m, hm, hgm⟩)
              · exact Or.inl hx
              · exact Or.inr ⟨node, List.mem_cons_self _ _, hG⟩
              · exact Or.inr ⟨m, List.mem_cons_of_mem _ hm, hgm⟩
            · rintro (hx | ⟨m, hm, hgm⟩)
              · exact Or.inl (Or.inl hx)
              · rcases List.mem_cons.1 hm with rfl | hm'
                · rw [hG] at hgm
                  injection hgm with hgm
                  exact Or.inl (Or.inr hgm.symm)
                · exact Or.inr ⟨m, hm', hgm⟩
      | err msg =>
        rw [hu] at h
        try dsimp only at h
        have hstep : Grows labelsKeys g (add_node g gid [("border_color", "#FFFFFF")]) :=
          Grows_add_node labelInitAttrs_none g gid
        split at h
        · rename_i hc
          injection h with hh
          subst hh
          exact absurd (containsNode_iff.1 hc) hErr
        · obtain ⟨hg1, he1, hn1⟩ := ih h hErr
          refine ⟨Grows_trans hstep hg1, ?_, ?_⟩
          · rw [he1, edges_add_node]
          · intro x
            rw [hn1 x, mem_nodeIds_add_node]
            constructor
            · rintro ((hx | rfl) | ⟨m, hm, hgm⟩)
              · exact Or.inl hx
              · exact Or.inr ⟨node, List.mem_cons_self _ _, hG⟩
              · exact Or.inr ⟨m, List.mem_cons_of_mem _ hm, hgm⟩
            · rintro (hx | ⟨m, hm, hgm⟩)
              · exact Or.inl (Or.inl hx)
              · rcases List.mem_cons.1 hm with rfl | hm'
                · rw [hG] at hgm
                  injection hgm with hgm
                  exact Or.inl (Or.inr hgm.symm)
                · exact Or.inr ⟨m, hm', hgm⟩
      | exc =>
        rw [hu] at h
        try dsimp only at h
        have hstep : Grows labelsKeys g (add_node g gid [("border_color", "#FFFFFF")]) :=
          Grows_add_node labelInitAttrs_none g gid
        split at h
        · rename_i hc
          injection h with hh
          subst hh
          exact absurd (containsNode_iff.1 hc) hErr
        · obtain ⟨hg1, he1, hn1⟩ := ih h hErr
          refine ⟨Grows_trans hstep hg1, ?_, ?_⟩
          · rw [he1, edges_add_node]
          · intro x
            rw [hn1 x, mem_nodeIds_add_node]
            constructor
            · rintro ((hx | rfl) | ⟨m, hm, hgm⟩)
              · exact Or.inl hx
              · exact Or.inr ⟨node, List.mem_cons_self _ _, hG⟩
              · exact Or.inr ⟨m, List.mem_cons_of_mem _ hm, hgm⟩
            · rintro (hx | ⟨m, hm, hgm⟩)
              · exact Or.inl (Or.inl hx)
              · rcases List.mem_cons.1 hm with rfl | hm'
                · rw [hG] at hgm
                  injection hgm with hgm
                  exact Or.inl (Or.inr hgm.symm)
                · exact Or.inr ⟨m, hm', hgm⟩

/-! ## Lemmas: the Interactions stage -/

theorem add_edge_closed {g : Graph} (hc : EdgesClosed g) (a b : String) :
    EdgesClosed (add_edge g a b) := by
  intro p hp
  rcases (mem_edges_add_edge g a b p).1 hp with hp' | rfl
  · obtain ⟨h1, h2⟩ := hc p hp'
    exact ⟨(mem_nodeIds_add_edge g a b).2 (Or.inl h1),
      (mem_nodeIds_add_edge g a b).2 (Or.inl h2)⟩
  · exact ⟨(mem_nodeIds_add_edge g a b).2 (Or.inr (Or.inl rfl)),
      (mem_nodeIds_add_edge g a b).2 (Or.inr (Or.inr rfl))⟩

theorem InteractionsPost_refl {g : Graph} (hc : EdgesClosed g) : InteractionsPost g g :=
  ⟨hc, Grows_refl _ _, fun x => ⟨Or.inl, by
    rintro (hx | ⟨p, hp, hnp, -⟩)
    · exact hx
    · exact absurd hp hnp⟩⟩

theorem InteractionsPost_addEdge {g g' : Graph} {a b : String} (hc : EdgesClosed g)
    (hpost : InteractionsPost (add_edge g a b) g') : InteractionsPost g g' := by
  obtain ⟨hc', hgrow, hiff⟩ := hpost
  have hgrow' : Grows ([] : List String) g g' :=
    Grows_trans (Grows_add_edge [] g a b) hgrow
  refine ⟨hc', hgrow', fun x => ?_⟩
  constructor
  · intro hx
    rcases (hiff x).1 hx with hx1 | ⟨p, hp, hnp, hend⟩
    · rcases (mem_nodeIds_add_edge g a b).1 hx1 with hxg | rfl | rfl
      · exact Or.inl hxg
      · by_cases hab : (x, b) ∈ g.edges
        · exact Or.inl (hc _ hab).1
        · refine Or.inr ⟨(x, b), ?_, hab, Or.inl rfl⟩
          exact hgrow.2.1 _ ((mem_edges_add_edge g x b _).2 (Or.inr rfl))
      · by_cases hab : (a, x) ∈ g.edges
        · exact Or.inl (hc _ hab).2
        · refine Or.inr ⟨(a, x), ?_, hab, Or.inr rfl⟩
          exact hgrow.2.1 _ ((mem_edges_add_edge g a x _).2 (Or.inr rfl))
    · have hnp' : p ∉ g.edges := fun hmem =>
        hnp ((mem_edges_add_edge g a b p).2 (Or.inl hmem))
      exact Or.inr ⟨p, hp, hnp', hend⟩
  · rintro (hx | ⟨p, hp, hnp, hend⟩)
    · exact (hiff x).2 (Or.inl ((mem_nodeIds_add_edge g a b).2 (Or.inl hx)))
    · by_cases hp1 : p ∈ (add_edge g a b).edges
      · rcases (mem_edges_add_edge g a b p).1 hp1 with hpg | rfl
        · exact absurd hpg hnp
        · rcases hend with h1 | h1 <;> subst h1
          · exact (hiff _).2 (Or.inl ((mem_nodeIds_add_edge g _ _).2 (Or.inr (Or.inl rfl))))
          · exact (hiff _).2 (Or.inl ((mem_nodeIds_add_edge g _ _).2 (Or.inr (Or.inr rfl))))
      · exact (hiff x).2 (Or.inr ⟨p, hp, hp1, hend⟩)

theorem edgeLoop_ok {es : List (String × List AttrMap)} :
    ∀ {g g' : Graph}, EdgesClosed g → edgeLoop g es = .ok g' →
      InteractionsPost g g' := by
  induction es with
  | nil =>
    intro g g' hc h
    simp only [edgeLoop] at h
    injection h with hh
    subst hh
    exact InteractionsPost_refl hc
  | cons e rest ih =>
    intro g g' hc h
    obtain ⟨eid, pts⟩ := e
    simp only [edgeLoop] at h
    split at h
    · rename_i p0 p1
      split at h
      · rename_i a b ha hb
        exact InteractionsPost_addEdge hc (ih (add_edge_closed hc a b) h)
      · exact absurd h (by simp)
    · rename_i p0 p1 p2
      split at h
      · exact InteractionsPost_addEdge hc (ih (add_edge_closed hc _ _) h)
      · split at h
        · exact InteractionsPost_addEdge hc (ih (add_edge_closed hc _ _) h)
        · split at h
          · exact InteractionsPost_addEdge hc (ih (add_edge_closed hc _ _) h)
          · exact absurd h (by simp)
    · exact ih hc h

theorem parse_interactions_ok {g g' : Graph} {root : XmlElem} (hc : EdgesClosed g)
    (h : parse_interactions g root = .ok g') : InteractionsPost g g' := by
  unfold parse_interactions at h
  split at h
  · exact absurd h (by simp)
  · exact absurd h (by simp)
  · exact edgeLoop_ok hc h

/-! ## Lemmas: the driver -/

theorem parse_gpml_success {root : XmlElem} {title : String} {g : Graph}
    {l : List LayoutEntry} {t : String}
    (h : parse_gpml root title = .success g l t) :
    ∃ g1 g2 g3 g4,
      parse_groups Graph.empty root = .ok g1 ∧ "Error" ∉ nodeIds g1 ∧
      parse_shapes g1 root = .ok g2 ∧ "Error" ∉ nodeIds g2 ∧
      parse_datanodes g2 root = .ok g3 ∧ "Error" ∉ nodeIds g3 ∧
      parse_labels g3 root = .ok g4 ∧ "Error" ∉ nodeIds g4 ∧
      parse_interactions g4 root = .ok g ∧ "Error" ∉ nodeIds g ∧
      l = set_gpml_layout g ∧
      ∃ nm, lookupA root.attrib "Name" = some nm ∧
        t = (if title = "" then (if nm = "" then "GPML" else nm) else title) := by
  unfold parse_gpml stepCheck at h
  split at h
  · exact absurd h (by simp)
  · exact absurd h (by simp)
  · rename_i g1 hok1
    split at h
    · exact absurd h (by simp)
    · rename_i hc1
      try dsimp only at h
      split at h
      · exact absurd h (by simp)
      · exact absurd h (by simp)
      · rename_i g2 hok2
        split at h
        · exact absurd h (by simp)
        · rename_i hc2
          try dsimp only at h
          split at h
          · exact absurd h (by simp)
          · exact absurd h (by simp)
          · rename_i g3 hok3
            split at h
            · exact absurd h (by simp)
            · rename_i hc3
              try dsimp only at h
              split at h
              · exact absurd h (by simp)
              · exact absurd h (by simp)
              · rename_i g4 hok4
                split at h
                · exact absurd h (by simp)
                · rename_i hc4
                  try dsimp only at h
                  split at h
                  · exact absurd h (by simp)
                  · exact absurd h (by simp)
                  · rename_i g5 hok5
                    split at h
                    · exact absurd h (by simp)
                    · rename_i hc5
                      try dsimp only at h
                      split at h
                      · exact absurd h (by simp)
                      · rename_i nm hnm
                        injection h with h1 h2 h3
                        subst h1
                        refine ⟨g1, g2, g3, g4,
                          hok1, fun hm => hc1 (containsNode_iff.2 hm),
                          hok2, fun hm => hc2 (containsNode_iff.2 hm),
                          hok3, fun hm => hc3 (containsNode_iff.2 hm),
                          hok4, fun hm => hc4 (containsNode_iff.2 hm),
                          hok5, fun hm => hc5 (containsNode_iff.2 hm),
                          h2.symm, nm, hnm, h3.symm⟩

theorem set_gpml_layout_ids {g : Graph} : ∀ e, e ∈ set_gpml_layout g → e.id ∈ nodeIds g := by
  intro e he
  unfold set_gpml_layout at he
  rw [List.mem_filterMap] at he
  obtain ⟨p, hp, hpe⟩ := he
  split at hpe
  · injection hpe with hh
    subst hh
    exact List.mem_map.2 ⟨p, hp, rfl⟩
  · exact absurd hpe (by simp)

theorem mem_declaredIds {root : XmlElem} {x : String} :
    x ∈ declaredIds root ↔
      (∃ e, e ∈ findall root "Group" ∧ lookupA e.attrib "GraphId" = some x) ∨
      (∃ m, m ∈ extract_attributes (findall root "Shape") ∧ lookupA m "GraphId" = some x) ∨
      (∃ m, m ∈ extract_attributes (findall root "DataNode") ∧ lookupA m "GraphId" = some x) ∨
      (∃ m, m ∈ extract_attributes (findall root "Label") ∧ lookupA m "GraphId" = some x) := by
  simp only [declaredIds, List.mem_filterMap, List.mem_append, List.mem_map]
  constructor
  · rintro ⟨m, (((⟨e, he, rfl⟩ | hm) | hm) | hm), hgm⟩
    · exact Or.inl ⟨e, he, hgm⟩
    · exact Or.inr (Or.inl ⟨m, hm, hgm⟩)
    · exact Or.inr (Or.inr (Or.inl ⟨m, hm, hgm⟩))
    · exact Or.inr (Or.inr (Or.inr ⟨m, hm, hgm⟩))
  · rintro (⟨e, he, hge⟩ | ⟨m, hm, hgm⟩ | ⟨m, hm, hgm⟩ | ⟨m, hm, hgm⟩)
    · exact ⟨e.attrib, Or.inl (Or.inl (Or.inl ⟨e, he, rfl⟩)), hge⟩
    · exact ⟨m, Or.inl (Or.inl (Or.inr hm)), hgm⟩
    · exact ⟨m, Or.inl (Or.inr hm), hgm⟩
    · exact ⟨m, Or.inr hm, hgm⟩

theorem stages_of_success {root : XmlElem} {title : String} {g : Graph}
    {l : List LayoutEntry} {t : String}
    (h : parse_gpml root title = .success g l t) :
    ∃ g1 g2 g3 g4,
      parse_groups_go Graph.empty (findall root "Group") = .ok g1 ∧
        "Error" ∉ nodeIds g1 ∧
      parse_shapes_go g1 (extract_attributes (findall root "Shape")) = .ok g2 ∧
        "Error" ∉ nodeIds g2 ∧
      parse_datanodes_go g2 (extract_attributes (findall root "DataNode")) = .ok g3 ∧
        "Error" ∉ nodeIds g3 ∧
      parse_labels_go g3 (extract_attributes (findall root "Label")) = .ok g4 ∧
        "Error" ∉ nodeIds g4 ∧
      InteractionsPost g4 g ∧
      g1.edges = [] ∧ g2.edges = [] ∧ g3.edges = [] ∧ g4.edges = [] ∧
      l = set_gpml_layout g := by
  obtain ⟨g1, g2, g3, g4, hok1, hE1, hok2, hE2, hok3, hE3, hok4, hE4, hok5, hE5, hl, -⟩ :=
    parse_gpml_success h
  have hok1' : parse_groups_go Graph.empty (findall root "Group") = .ok g1 := hok1
  have hok2' : parse_shapes_go g1 (extract_attributes (findall root "Shape")) = .ok g2 := hok2
  have hok3' : parse_datanodes_go g2 (extract_attributes (findall root "DataNode")) = .ok g3 :=
    hok3
  have hok4' : parse_labels_go g3 (extract_attributes (findall root "Label")) = .ok g4 := hok4
  obtain ⟨-, he1, -⟩ := parse_groups_go_ok hok1'
  obtain ⟨-, he2, -, -⟩ := parse_shapes_go_ok hok2' hE2
  obtain ⟨-, he3, -, -⟩ := parse_datanodes_go_ok hok3' hE3
  obtain ⟨-, he4, -⟩ := parse_labels_go_ok hok4' hE4
  have hg1e : g1.edges = [] := by rw [he1]; rfl
  have hg2e : g2.edges = [] := by rw [he2, hg1e]
  have hg3e : g3.edges = [] := by rw [he3, hg2e]
  have hg4e : g4.edges = [] := by rw [he4, hg3e]
  have hcl : EdgesClosed g4 := fun p hp => by rw [hg4e] at hp; simp at hp
  have hpost : InteractionsPost g4 g := parse_interactions_ok hcl hok5
  exact ⟨g1, g2, g3, g4, hok1', hE1, hok2', hE2, hok3', hE3, hok4', hE4,
    hpost, hg1e, hg2e, hg3e, hg4e, hl⟩

/-! ## Claim C1 -/

/-- C1 counterexample: `c1doc` contains a Group (`g1`) and a Label (`l1`)
whose flattened attributes lack `CenterX`/`CenterY`, yet `parse_gpml`
succeeds — no `MissingCoordinates` error is reported — and both nodes sit in
the output graph without an `x` or `y` coordinate.  This refutes the claim
for the Group and Label element kinds. -/
theorem C1_counterexample :
    (match parse_gpml c1doc "" with
     | .success g _ _ =>
        containsNode g "g1" = true ∧ containsNode g "l1" = true ∧
        nodeHasXY g "g1" = false ∧ nodeHasXY g "l1" = false
     | _ => False) := by
  exact ⟨rfl, rfl, rfl, rfl⟩

/-- C1 (amended): for every document that `parse_gpml` translates without
returning an error, every Shape and DataNode element carries a `GraphId` and
both `CenterX` and `CenterY` in its flattened attribute mapping, and the
node created for it carries both an `x` and a `y` coordinate in the output
graph (a Shape or DataNode lacking a coordinate makes the translation fail
with the missing-coordinates error, so it never reaches a success).  Group
nodes never receive coordinates, and a Label lacking them is created without
coordinates and without an error, because `parse_labels` discards the
normalizer's return value. -/
theorem C1_amended_coords (root : XmlElem) (title : String) (g : Graph)
    (l : List LayoutEntry) (t : String)
    (hsucc : parse_gpml root title = GpmlOut.success g l t) :
    ∀ m, m ∈ extract_attributes (findall root "Shape") ++
        extract_attributes (findall root "DataNode") →
      ∃ gid, lookupA m "GraphId" = some gid ∧
        hasKeyA m "CenterX" = true ∧ hasKeyA m "CenterY" = true ∧
        nodeHasXY g gid = true := by
  obtain ⟨g1, g2, g3, g4, hok1, hE1, hok2, hE2, hok3, hE3, hok4, hE4, hpost,
    -, -, -, -, -⟩ := stages_of_success hsucc
  obtain ⟨-, -, -, hshapes⟩ := parse_shapes_go_ok hok2 hE2
  obtain ⟨hgrow3, -, -, hdatas⟩ := parse_datanodes_go_ok hok3 hE3
  obtain ⟨hgrow4, -, -⟩ := parse_labels_go_ok hok4 hE4
  have hgrow5 : Grows ([] : List String) g4 g := hpost.2.1
  intro m hm
  rcases List.mem_append.1 hm with hm' | hm'
  · obtain ⟨gid, hgid, hcx, hcy, hxy⟩ := hshapes m hm'
    exact ⟨gid, hgid, hcx, hcy,
      Grows_nodeHasXY_mono hgrow5
        (Grows_nodeHasXY_mono hgrow4 (Grows_nodeHasXY_mono hgrow3 hxy))⟩
  · obtain ⟨gid, hgid, hcx, hcy, hxy⟩ := hdatas m hm'
    exact ⟨gid, hgid, hcx, hcy,
      Grows_nodeHasXY_mono hgrow5 (Grows_nodeHasXY_mono hgrow4 hxy)⟩

/-- C1 witness: the amended theorem applied to a one-Shape document. -/
theorem C1_amended_coords_witness :
    ∃ gid, lookupA [("GraphId", "A"), ("CenterX", "1"), ("CenterY", "2")] "GraphId" = some gid ∧
      hasKeyA [("GraphId", "A"), ("CenterX", "1"), ("CenterY", "2")] "CenterX" = true ∧
      hasKeyA [("GraphId", "A"), ("CenterX", "1"), ("CenterY", "2")] "CenterY" = true ∧
      nodeHasXY ⟨[("A", [("x", "1"), ("y", "2"), ("background_color", "white"),
        ("background_opacity", "0"), ("shape", "rectangle")])], []⟩ gid = true :=
  C1_amended_coords
    (XmlElem.mk "Pathway" [("Name", "t")]
      [XmlElem.mk (GPML ++ "Shape")
        [("GraphId", "A"), ("CenterX", "1"), ("CenterY", "2")] []])
    "" _ _ _ rfl
    [("GraphId", "A"), ("CenterX", "1"), ("CenterY", "2")]
    (by decide)

/-! ## Claim C2 -/

/-- C2 counterexample: in `c2doc` the Interaction references `B`, which no
Shape/Label/DataNode/Group declares; the translation succeeds, the edge
`("A", "B")` is added, and `B` becomes a node of the output graph — so the
node-identity set is strictly larger than the union of declared `GraphId`s
and the edge does not connect two already-known identities. -/
theorem C2_counterexample :
    (match parse_gpml c2doc "" with
     | .success g _ _ =>
        containsNode g "B" = true ∧ (declaredIds c2doc).contains "B" = false ∧
        g.edges = [("A", "B")]
     | _ => False) := by
  exact ⟨rfl, rfl, rfl⟩

/-- C2 (amended): for every successfully translated document, the node
identities of the output graph are exactly the `GraphId` values declared by
Shape, Label, DataNode and Group elements together with the endpoints of the
edges the Interactions added (an endpoint reference is not checked against
the declared identities — `add_edge` on the NetworkX graph silently inserts
an unknown endpoint as a new node); the ids of the returned layout entries
are a subset of the node identities. -/
theorem C2_amended_node_identities (root : XmlElem) (title : String) (g : Graph)
    (l : List LayoutEntry) (t : String)
    (hsucc : parse_gpml root title = GpmlOut.success g l t) :
    (∀ x, x ∈ nodeIds g ↔
      x ∈ declaredIds root ∨ ∃ p, p ∈ g.edges ∧ (x = p.1 ∨ x = p.2)) ∧
    (∀ e, e ∈ l → e.id ∈ nodeIds g) := by
  obtain ⟨g1, g2, g3, g4, hok1, hE1, hok2, hE2, hok3, hE3, hok4, hE4, hpost,
    hg1e, hg2e, hg3e, hg4e, hl⟩ := stages_of_success hsucc
  obtain ⟨-, -, hn1⟩ := parse_groups_go_ok hok1
  obtain ⟨-, -, hn2, -⟩ := parse_shapes_go_ok hok2 hE2
  obtain ⟨-, -, hn3, -⟩ := parse_datanodes_go_ok hok3 hE3
  obtain ⟨-, -, hn4⟩ := parse_labels_go_ok hok4 hE4
  obtain ⟨hclosed, hgrow5, hn5⟩ := hpost
  constructor
  · intro x
    rw [hn5 x, hn4 x, hn3 x, hn2 x, hn1 x, mem_declaredIds]
    constructor
    · rintro (((((hx | hgrp) | hshp) | hdat) | hlab) | ⟨p, hp, -, hend⟩)
      · simp [nodeIds, Graph.empty] at hx
      · exact Or.inl (Or.inl hgrp)
      · exact Or.inl (Or.inr (Or.inl hshp))
      · exact Or.inl (Or.inr (Or.inr (Or.inl hdat)))
      · exact Or.inl (Or.inr (Or.inr (Or.inr hlab)))
      · exact Or.inr ⟨p, hp, hend⟩
    · rintro ((hgrp | hshp | hdat | hlab) | ⟨p, hp, hend⟩)
      · exact Or.inl (Or.inl (Or.inl (Or.inl (Or.inr hgrp))))
      · exact Or.inl (Or.inl (Or.inl (Or.inr hshp)))
      · exact Or.inl (Or.inl (Or.inr hdat))
      · exact Or.inl (Or.inr hlab)
      · exact Or.inr ⟨p, hp, by simp [hg4e], hend⟩
  · intro e he
    rw [hl] at he
    exact set_gpml_layout_ids e he

/-- C2 witness: the amended theorem applied to a document with one Shape and
one Interaction referencing it and an undeclared identity. -/
theorem C2_amended_node_identities_witness :
    (∀ x, x ∈ nodeIds (⟨[("A", [("x", "1"), ("y", "2"), ("background_color", "white"),
          ("background_opacity", "0"), ("shape", "rectangle")]), ("B", [])],
        [("A", "B")]⟩ : Graph) ↔
      x ∈ declaredIds c2doc ∨
        ∃ p, p ∈ (⟨[("A", [("x", "1"), ("y", "2"), ("background_color", "white"),
          ("background_opacity", "0"), ("shape", "rectangle")]), ("B", [])],
        [("A", "B")]⟩ : Graph).edges ∧ (x = p.1 ∨ x = p.2)) ∧
    (∀ e, e ∈ [(⟨"A", "1", "2"⟩ : LayoutEntry)] →
      e.id ∈ nodeIds (⟨[("A", [("x", "1"), ("y", "2"), ("background_color", "white"),
          ("background_opacity", "0"), ("shape", "rectangle")]), ("B", [])],
        [("A", "B")]⟩ : Graph)) :=
  C2_amended_node_identities c2doc "" _ _ _ rfl

/-! ## Claim C3 -/

/-- C3: the title fallback never fires for an *absent* `Name` attribute —
`graph_gpml.attrib['Name']` raises KeyError, so a document whose root
carries no `Name` makes `parse_gpml` abort with an exception instead of
returning the title `"GPML"`.  The fallback only fires when `Name` is
present but empty, as the second conjunct shows. -/
theorem C3_missing_name_exception :
    parse_gpml (XmlElem.mk "Pathway" [] []) "" = GpmlOut.exception ∧
    parse_gpml (XmlElem.mk "Pathway" [("Name", "")] []) "" =
      GpmlOut.success ⟨[], []⟩ [] "GPML" := by
  exact ⟨rfl, rfl⟩

/-! ## Claim C5 -/

theorem shapeStep_vs_claimed (g : Graph) (gid : String) (o : Option String) :
    (match claimedShapeKeyword o with
     | .error st => shapeStep g gid o = .err ("The shape " ++ st ++ " is not supported")
     | .ok shp => shapeStep g gid o = .ok (setNodeAttr g gid "shape" shp)) := by
  cases o with
  | none => simp [claimedShapeKeyword, shapeStep]
  | some s =>
    by_cases h1 : pyLower s = "brace"
    · simp [claimedShapeKeyword, shapeStep, h1]
    by_cases h2 : pyLower s = "arc"
    · simp [claimedShapeKeyword, shapeStep, h1, h2]
    by_cases h3 : pyLower s = "oval"
    · simp [claimedShapeKeyword, shapeStep, h1, h2, h3]
    by_cases h4 : pyLower s = "roundedrectangle"
    · simp [claimedShapeKeyword, shapeStep, h1, h2, h3, h4]
    by_cases h5 : pyLower s = "mitochondria"
    · simp [claimedShapeKeyword, shapeStep, h1, h2, h3, h4, h5]
    by_cases h6 : pyLower s = "mim-degradation"
    · simp [claimedShapeKeyword, shapeStep, h1, h2, h3, h4, h5, h6]
    by_cases h7 : pyLower s = "none"
    · simp [claimedShapeKeyword, shapeStep, h1, h2, h3, h4, h5, h6, h7]
    by_cases h8 : pyLower s = "mim-phosphorylated"
    · simp [claimedShapeKeyword, shapeStep, h1, h2, h3, h4, h5, h6, h7, h8]
    simp [claimedShapeKeyword, shapeStep, h1, h2, h3, h4, h5, h6, h7, h8]

/-- C5: for any Shape element (with identity, both coordinates, and no node
named `Error` involved), the output `shape` keyword follows the claimed
casefolded table `claimedShapeKeyword`: `brace`/`arc` become `rectangle`,
`oval`/`mitochondria` become `ellipse`, `roundedrectangle` becomes
`roundrectangle`, the three unsupported values make `parse_shapes` fail with
the `UnsupportedShape` error naming the casefolded value, any other value
passes through verbatim, and a missing `ShapeType` defaults to
`rectangle`. -/
theorem C5_shape_keyword (G : Graph) (m : AttrMap) (gid rt : String) (ra : AttrMap)
    (hG : lookupA m "GraphId" = some gid)
    (hcx : hasKeyA m "CenterX" = true) (hcy : hasKeyA m "CenterY" = true)
    (hne : gid ≠ "Error") (hErrG : "Error" ∉ nodeIds G) :
    (match claimedShapeKeyword (lookupA m "ShapeType") with
     | .error st =>
        parse_shapes G (XmlElem.mk rt ra [XmlElem.mk (GPML ++ "Shape") m []]) =
          .err ("The shape " ++ st ++ " is not supported")
     | .ok shp =>
        ∃ g', parse_shapes G (XmlElem.mk rt ra [XmlElem.mk (GPML ++ "Shape") m []]) = .ok g' ∧
          lookupA (attrsOf g' gid) "shape" = some shp) := by
  have hxs : extract_attributes
      (findall (XmlElem.mk rt ra [XmlElem.mk (GPML ++ "Shape") m []]) "Shape") = [m ++ []] := by
    simp [extract_attributes, findall, XmlElem.children, XmlElem.tag, flattenElem, XmlElem.attrib]
  have hm0 : m ++ [] = m := List.append_nil m
  have hps : parse_shapes G (XmlElem.mk rt ra [XmlElem.mk (GPML ++ "Shape") m []]) =
      parse_shapes_go G [m] := by
    unfold parse_shapes
    rw [hxs, hm0]
  obtain ⟨cx, hcx'⟩ : ∃ cx, lookupA m "CenterX" = some cx := by
    cases hx : lookupA m "CenterX"
    · rw [hasKeyA, hx] at hcx
      simp at hcx
    · exact ⟨_, rfl⟩
  obtain ⟨cy, hcy'⟩ : ∃ cy, lookupA m "CenterY" = some cy := by
    cases hy : lookupA m "CenterY"
    · rw [hasKeyA, hy] at hcy
      simp at hcy
    · exact ⟨_, rfl⟩
  have hupd : update_node_graphics (add_node G gid []) m =
      .ok (applyGraphics (setNodeAttr (setNodeAttr (add_node G gid []) gid "x" cx) gid "y" cy)
        gid m) :=
    update_eq_ok (add_node G gid []) hG hcx' hcy'
  have hsets : Sets graphicsKeys (add_node G gid [])
      (applyGraphics (setNodeAttr (setNodeAttr (add_node G gid []) gid "x" cx) gid "y" cy)
        gid m) := (update_node_graphics_ok hG hupd).1
  have hErr2 : containsNode (applyGraphics (setNodeAttr (setNodeAttr (add_node G gid [])
      gid "x" cx) gid "y" cy) gid m) "Error" = false := by
    have hnm : "Error" ∉ nodeIds (applyGraphics (setNodeAttr (setNodeAttr (add_node G gid [])
        gid "x" cx) gid "y" cy) gid m) := by
      rw [Sets_nodeIds hsets]
      intro hmem
      rcases (mem_nodeIds_add_node G gid []).1 hmem with h | h
      · exact hErrG h
      · exact hne h.symm
    cases hb : containsNode (applyGraphics (setNodeAttr (setNodeAttr (add_node G gid [])
        gid "x" cx) gid "y" cy) gid m) "Error"
    · rfl
    · exact absurd (containsNode_iff.1 hb) hnm
  have hmem2 : gid ∈ nodeIds (applyGraphics (setNodeAttr (setNodeAttr (add_node G gid [])
      gid "x" cx) gid "y" cy) gid m) := by
    rw [Sets_nodeIds hsets]
    exact (mem_nodeIds_add_node G gid []).2 (Or.inr rfl)
  have hvs := shapeStep_vs_claimed (applyGraphics (setNodeAttr (setNodeAttr (add_node G gid [])
      gid "x" cx) gid "y" cy) gid m) gid (lookupA m "ShapeType")
  cases hck : claimedShapeKeyword (lookupA m "ShapeType") with
  | error st =>
    rw [hck] at hvs
    rw [hps]
    simp [parse_shapes_go, hG, hupd, hErr2, hvs]
  | ok shp =>
    rw [hck] at hvs
    rw [hps]
    refine ⟨if lookupA m "key" = some "org.pathvisio.DoubleLineProperty" then
        setNodeAttr (setNodeAttr (applyGraphics (setNodeAttr (setNodeAttr (add_node G gid [])
          gid "x" cx) gid "y" cy) gid m) gid "shape" shp) gid "border_style" "double"
      else setNodeAttr (applyGraphics (setNodeAttr (setNodeAttr (add_node G gid [])
          gid "x" cx) gid "y" cy) gid m) gid "shape" shp, ?_, ?_⟩
    · simp [parse_shapes_go, hG, hupd, hErr2, hvs]
    · have hshape3 : lookupA (attrsOf (setNodeAttr (applyGraphics (setNodeAttr (setNodeAttr
          (add_node G gid []) gid "x" cx) gid "y" cy) gid m) gid "shape" shp) gid)
          "shape" = some shp := by
        rw [attrsOf_setNodeAttr_self _ _ _ _ hmem2, lookupA_snoc]
        simp
      by_cases hkey : lookupA m "key" = some "org.pathvisio.DoubleLineProperty"
      · rw [if_pos hkey]
        have hmem3 : gid ∈ nodeIds (setNodeAttr (applyGraphics (setNodeAttr (setNodeAttr
            (add_node G gid []) gid "x" cx) gid "y" cy) gid m) gid "shape" shp) := by
          rw [nodeIds_setNodeAttr]
          exact hmem2
        rw [attrsOf_setNodeAttr_self _ _ _ _ hmem3, lookupA_snoc]
        simpa using hshape3
      · rw [if_neg hkey]
        exact hshape3

/-- C5 witness: the theorem applied to a Shape with `ShapeType=Oval` on an
empty graph. -/
theorem C5_shape_keyword_witness :
    ∃ g', parse_shapes Graph.empty
        (XmlElem.mk "Pathway" []
          [XmlElem.mk (GPML ++ "Shape")
            [("GraphId", "A"), ("CenterX", "1"), ("CenterY", "2"), ("ShapeType", "Oval")] []]) =
        .ok g' ∧
      lookupA (attrsOf g' "A") "shape" = some "ellipse" :=
  C5_shape_keyword Graph.empty
    [("GraphId", "A"), ("CenterX", "1"), ("CenterY", "2"), ("ShapeType", "Oval")]
    "A" "Pathway" [] rfl rfl rfl (by decide) (by decide)

/-! ## Claims C6 and C7 -/

/-- C7: for an Interaction with exactly two points, both points must carry a
`GraphRef`; then exactly the directed edge from point 0's reference to point
1's reference is added (`add_edge` on the graph), and a missing reference on
either point yields the `MissingEndpointReference` error naming the
Interaction's identity. -/
theorem C7_two_point_edge (G : Graph) (rt lt pt0 pt1 : String)
    (ra ia la p0 p1 : AttrMap) (iid : String)
    (hG : lookupA (ia ++ la) "GraphId" = some iid) :
    parse_interactions G (XmlElem.mk rt ra
      [XmlElem.mk (GPML ++ "Interaction") ia
        [XmlElem.mk lt la [XmlElem.mk pt0 p0 [], XmlElem.mk pt1 p1 []]]]) =
      (match lookupA p0 "GraphRef", lookupA p1 "GraphRef" with
       | some a, some b => .ok (add_edge G a b)
       | _, _ =>
          .err ("GPML file must contain GraphRef for all interaction elements! Value for "
            ++ iid ++ " missing")) := by
  unfold parse_interactions
  have hrec : (findall (XmlElem.mk rt ra
      [XmlElem.mk (GPML ++ "Interaction") ia
        [XmlElem.mk lt la [XmlElem.mk pt0 p0 [], XmlElem.mk pt1 p1 []]]])
        "Interaction").map interactionRecord =
      [(ia ++ (la ++ []), some [p0, p1])] := by
    simp [findall, XmlElem.children, XmlElem.tag, interactionRecord, XmlElem.attrib]
  rw [hrec]
  have hG' : lookupA (ia ++ (la ++ [])) "GraphId" = some iid := by
    rw [List.append_nil]
    exact hG
  simp only [buildEdgesDict, hG', dictInsert]
  cases h0 : lookupA p0 "GraphRef" <;> cases h1 : lookupA p1 "GraphRef" <;>
    simp [edgeLoop, h0, h1]

/-- C7 witness: both references present yield exactly one edge `A → B`. -/
theorem C7_two_point_edge_witness :
    parse_interactions Graph.empty (XmlElem.mk "Pathway" []
      [XmlElem.mk (GPML ++ "Interaction") [("GraphId", "i1")]
        [XmlElem.mk "Graphics" []
          [XmlElem.mk "Point" [("GraphRef", "A")] [],
           XmlElem.mk "Point" [("GraphRef", "B")] []]]]) =
      .ok (add_edge Graph.empty "A" "B") :=
  C7_two_point_edge Graph.empty "Pathway" "Graphics" "Point" "Point"
    [] [("GraphId", "i1")] [] [("GraphRef", "A")] [("GraphRef", "B")] "i1" rfl

/-- C6: for an Interaction with exactly three points, the edge comes from
the first pair among (0,1), (0,2), (1,2) in which both points carry a
`GraphRef`, directed from the first point's reference to the second's; when
no pair qualifies the translation fails with the error naming the
Interaction's identity. -/
theorem C6_three_point_priority (G : Graph) (rt lt pt0 pt1 pt2 : String)
    (ra ia la p0 p1 p2 : AttrMap) (iid : String)
    (hG : lookupA (ia ++ la) "GraphId" = some iid) :
    parse_interactions G (XmlElem.mk rt ra
      [XmlElem.mk (GPML ++ "Interaction") ia
        [XmlElem.mk lt la
          [XmlElem.mk pt0 p0 [], XmlElem.mk pt1 p1 [], XmlElem.mk pt2 p2 []]]]) =
      (if hasKeyA p0 "GraphRef" && hasKeyA p1 "GraphRef" then
        .ok (add_edge G (getA p0 "GraphRef") (getA p1 "GraphRef"))
      else if hasKeyA p0 "GraphRef" && hasKeyA p2 "GraphRef" then
        .ok (add_edge G (getA p0 "GraphRef") (getA p2 "GraphRef"))
      else if hasKeyA p1 "GraphRef" && hasKeyA p2 "GraphRef" then
        .ok (add_edge G (getA p1 "GraphRef") (getA p2 "GraphRef"))
      else
        .err ("GPML file must contain GraphRef for all interaction elements! Value for "
          ++ iid ++ " missing")) := by
  unfold parse_interactions
  have hrec : (findall (XmlElem.mk rt ra
      [XmlElem.mk (GPML ++ "Interaction") ia
        [XmlElem.mk lt la
          [XmlElem.mk pt0 p0 [], XmlElem.mk pt1 p1 [], XmlElem.mk pt2 p2 []]]])
        "Interaction").map interactionRecord =
      [(ia ++ (la ++ []), some [p0, p1, p2])] := by
    simp [findall, XmlElem.children, XmlElem.tag, interactionRecord, XmlElem.attrib]
  rw [hrec]
  have hG' : lookupA (ia ++ (la ++ [])) "GraphId" = some iid := by
    rw [List.append_nil]
    exact hG
  simp only [buildEdgesDict, hG', dictInsert]
  by_cases hc1 : (hasKeyA p0 "GraphRef" && hasKeyA p1 "GraphRef") = true
  · simp [edgeLoop, hc1]
  · by_cases hc2 : (hasKeyA p0 "GraphRef" && hasKeyA p2 "GraphRef") = true
    · simp [edgeLoop, hc1, hc2]
    · by_cases hc3 : (hasKeyA p1 "GraphRef" && hasKeyA p2 "GraphRef") = true
      · simp [edgeLoop, hc1, hc2, hc3]
      · simp [edgeLoop, hc1, hc2, hc3]

/-- C6 witness: references only on points 0 and 2 — the pair (0,1) fails, so
the edge goes from point 0's reference to point 2's. -/
theorem C6_three_point_priority_witness :
    parse_interactions Graph.empty (XmlElem.mk "Pathway" []
      [XmlElem.mk (GPML ++ "Interaction") [("GraphId", "i1")]
        [XmlElem.mk "Graphics" []
          [XmlElem.mk "Point" [("GraphRef", "A")] [],
           XmlElem.mk "Point" [] [],
           XmlElem.mk "Point" [("GraphRef", "C")] []]]]) =
      .ok (add_edge Graph.empty "A" "C") :=
  C6_three_point_priority Graph.empty "Pathway" "Graphics" "Point" "Point" "Point"
    [] [("GraphId", "i1")] [] [("GraphRef", "A")] [] [("GraphRef", "C")] "i1" rfl

/-! ## Claim C8 -/

theorem add_edge_of_present {g : Graph} {a b : String} (ha : containsNode g a = true)
    (hb : containsNode g b = true) (he : (a, b) ∈ g.edges) : add_edge g a b = g := by
  have e1 : addNodeIfAbsent g a = g := by
    unfold addNodeIfAbsent
    rw [if_pos ha]
  have e2 : addNodeIfAbsent g b = g := by
    unfold addNodeIfAbsent
    rw [if_pos hb]
  have e3 : g.edges.contains (a, b) = true := List.elem_iff.2 he
  show (if (addNodeIfAbsent (addNodeIfAbsent g a) b).edges.contains (a, b) = true then
      addNodeIfAbsent (addNodeIfAbsent g a) b
    else { addNodeIfAbsent (addNodeIfAbsent g a) b with
      edges := (addNodeIfAbsent (addNodeIfAbsent g a) b).edges ++ [(a, b)] }) = g
  rw [e1, e2, if_pos e3]

theorem add_edge_idem (g : Graph) (a b : String) :
    add_edge (add_edge g a b) a b = add_edge g a b :=
  add_edge_of_present
    (containsNode_iff.2 ((mem_nodeIds_add_edge g a b).2 (Or.inr (Or.inl rfl))))
    (containsNode_iff.2 ((mem_nodeIds_add_edge g a b).2 (Or.inr (Or.inr rfl))))
    ((mem_edges_add_edge g a b (a, b)).2 (Or.inr rfl))

/-- C8 counterexample: `c8doc` holds two distinct Interactions (`i1`, `i2`)
that both resolve to the ordered pair `("A", "B")`, yet the successful
output graph holds exactly one edge `("A", "B")` — the DiGraph merges
parallel edges, refuting "the output graph contains multiple (two) edges". -/
theorem C8_counterexample :
    (match parse_gpml c8doc "" with
     | .success g _ _ => g.edges = [("A", "B")]
     | _ => False) := by
  exact rfl

/-- C8 (amended): two Interactions that resolve to the same directed pair
`(a, b)` produce a single edge: inserting an already-present ordered pair
into the DiGraph is a no-op (`add_edge_idem`), so the result equals the
graph with the edge added once, regardless of whether the two Interactions
share their identity. -/
theorem C8_amended_single_edge (G : Graph) (rt lt1 lt2 q0 q1 q2 q3 : String)
    (ra i1a i2a l1a l2a p0 p1 p2 p3 : AttrMap) (i1 i2 a b : String)
    (hG1 : lookupA (i1a ++ l1a) "GraphId" = some i1)
    (hG2 : lookupA (i2a ++ l2a) "GraphId" = some i2)
    (h0 : lookupA p0 "GraphRef" = some a) (h1 : lookupA p1 "GraphRef" = some b)
    (h2 : lookupA p2 "GraphRef" = some a) (h3 : lookupA p3 "GraphRef" = some b) :
    parse_interactions G (XmlElem.mk rt ra
      [XmlElem.mk (GPML ++ "Interaction") i1a
        [XmlElem.mk lt1 l1a [XmlElem.mk q0 p0 [], XmlElem.mk q1 p1 []]],
       XmlElem.mk (GPML ++ "Interaction") i2a
        [XmlElem.mk lt2 l2a [XmlElem.mk q2 p2 [], XmlElem.mk q3 p3 []]]]) =
      .ok (add_edge G a b) := by
  unfold parse_interactions
  have hrec : (findall (XmlElem.mk rt ra
      [XmlElem.mk (GPML ++ "Interaction") i1a
        [XmlElem.mk lt1 l1a [XmlElem.mk q0 p0 [], XmlElem.mk q1 p1 []]],
       XmlElem.mk (GPML ++ "Interaction") i2a
        [XmlElem.mk lt2 l2a [XmlElem.mk q2 p2 [], XmlElem.mk q3 p3 []]]])
        "Interaction").map interactionRecord =
      [(i1a ++ (l1a ++ []), some [p0, p1]), (i2a ++ (l2a ++ []), some [p2, p3])] := by
    simp [findall, XmlElem.children, XmlElem.tag, interactionRecord, XmlElem.attrib]
  rw [hrec]
  have hG1' : lookupA (i1a ++ (l1a ++ [])) "GraphId" = some i1 := by
    rw [List.append_nil]
    exact hG1
  have hG2' : lookupA (i2a ++ (l2a ++ [])) "GraphId" = some i2 := by
    rw [List.append_nil]
    exact hG2
  simp only [buildEdgesDict, hG1', hG2', dictInsert]
  by_cases hi : i1 = i2
  · simp [hi, edgeLoop, h2, h3]
  · simp [hi, edgeLoop, h0, h1, h2, h3, add_edge_idem]

/-- C8 witness: the amended theorem applied to two concrete Interactions
over the pair `("A", "B")`. -/
theorem C8_amended_single_edge_witness :
    parse_interactions Graph.empty (XmlElem.mk "Pathway" []
      [XmlElem.mk (GPML ++ "Interaction") [("GraphId", "i1")]
        [XmlElem.mk "Graphics" []
          [XmlElem.mk "Point" [("GraphRef", "A")] [],
           XmlElem.mk "Point" [("GraphRef", "B")] []]],
       XmlElem.mk (GPML ++ "Interaction") [("GraphId", "i2")]
        [XmlElem.mk "Graphics" []
          [XmlElem.mk "Point" [("GraphRef", "A")] [],
           XmlElem.mk "Point" [("GraphRef", "B")] []]]]) =
      .ok (add_edge Graph.empty "A" "B") :=
  C8_amended_single_edge Graph.empty "Pathway" "Graphics" "Graphics" "Point" "Point"
    "Point" "Point" [] [("GraphId", "i1")] [("GraphId", "i2")] [] []
    [("GraphRef", "A")] [("GraphRef", "B")] [("GraphRef", "A")] [("GraphRef", "B")]
    "i1" "i2" "A" "B" rfl rfl rfl rfl rfl rfl

/-! ## Claim C9 -/

theorem parse_groups_go_total {xs : List XmlElem} :
    ∀ g : Graph,
      (∀ e, e ∈ xs → (lookupA e.attrib "GraphId").isSome = true ∧
        (lookupA e.attrib "GroupId").isSome = true) →
      ∃ g', parse_groups_go g xs = .ok g' := by
  induction xs with
  | nil => exact fun g _ => ⟨g, rfl⟩
  | cons gr rest ih =>
    intro g hwf
    obtain ⟨h1, h2⟩ := hwf gr (List.mem_cons_self _ _)
    cases hG : lookupA gr.attrib "GraphId" with
    | none => rw [hG] at h1; simp at h1
    | some gid =>
      cases hGrp : lookupA gr.attrib "GroupId" with
      | none => rw [hGrp] at h2; simp at h2
      | some grp =>
        obtain ⟨g', hok⟩ := ih (groupSetup (add_node g gid []) gid grp)
          (fun e he => hwf e (List.mem_cons_of_mem _ he))
        refine ⟨g', ?_⟩
        simp [parse_groups_go, hG, hGrp, hok]

/-- C9: when every Group element is well formed (no parse error can occur in
the groups stage) and some Group's `GraphId` is the literal string `Error`,
the driver's error test `'Error' in G` — node membership on the graph —
fires right after `parse_groups`, and `parse_gpml` returns the graph object
itself in place of an error (paired with the empty layout and empty title),
even though no parse error occurred. -/
theorem C9_error_node_early_return (root : XmlElem) (title : String)
    (hwf : ∀ e, e ∈ findall root "Group" →
      (lookupA e.attrib "GraphId").isSome = true ∧
      (lookupA e.attrib "GroupId").isSome = true)
    (herr : ∃ e, e ∈ findall root "Group" ∧ lookupA e.attrib "GraphId" = some "Error") :
    ∃ g, parse_groups Graph.empty root = .ok g ∧ containsNode g "Error" = true ∧
      parse_gpml root title = .graphReturn g := by
  obtain ⟨g1, hok⟩ := parse_groups_go_total Graph.empty hwf
  obtain ⟨-, -, hn⟩ := parse_groups_go_ok hok
  obtain ⟨e, he, hge⟩ := herr
  have hcont : containsNode g1 "Error" = true :=
    containsNode_iff.2 ((hn "Error").2 (Or.inr ⟨e, he, hge⟩))
  have hok' : parse_groups Graph.empty root = .ok g1 := hok
  refine ⟨g1, hok', hcont, ?_⟩
  unfold parse_gpml stepCheck
  rw [hok']
  simp [hcont]

/-- C9 witness: a single well-formed Group named `Error`. -/
theorem C9_error_node_early_return_witness :
    ∃ g, parse_groups Graph.empty (XmlElem.mk "Pathway" [("Name", "t")]
        [XmlElem.mk (GPML ++ "Group") [("GraphId", "Error"), ("GroupId", "r")] []]) =
        .ok g ∧
      containsNode g "Error" = true ∧
      parse_gpml (XmlElem.mk "Pathway" [("Name", "t")]
        [XmlElem.mk (GPML ++ "Group") [("GraphId", "Error"), ("GroupId", "r")] []]) "tt" =
        .graphReturn g :=
  C9_error_node_early_return
    (XmlElem.mk "Pathway" [("Name", "t")]
      [XmlElem.mk (GPML ++ "Group") [("GraphId", "Error"), ("GroupId", "r")] []])
    "tt" (by decide) (by decide)

/-! ## Claim C10 -/

/-- C10: a Group element that carries a `GraphId` but no `GroupId` makes
`parse_groups` abort with an uncaught KeyError — the unguarded dictionary
index `group.attrib['GroupId']` — modelled as the `exc` result, which is a
different constructor from the tagged `err` records; the driver then
propagates the exception instead of an error return. -/
theorem C10_group_missing_groupid_exc (G : Graph) (rt : String) (ra a : AttrMap)
    (gid : String) (rest : List XmlElem) (title : String)
    (hG : lookupA a "GraphId" = some gid) (hGrp : lookupA a "GroupId" = none) :
    parse_groups G (XmlElem.mk rt ra (XmlElem.mk (GPML ++ "Group") a [] :: rest)) = .exc ∧
    parse_gpml (XmlElem.mk rt ra (XmlElem.mk (GPML ++ "Group") a [] :: rest)) title =
      .exception := by
  have hpg : ∀ G0 : Graph,
      parse_groups G0 (XmlElem.mk rt ra (XmlElem.mk (GPML ++ "Group") a [] :: rest)) = .exc := by
    intro G0
    unfold parse_groups
    simp [findall, XmlElem.children, XmlElem.tag, XmlElem.attrib, parse_groups_go, hG, hGrp]
  refine ⟨hpg G, ?_⟩
  unfold parse_gpml stepCheck
  rw [hpg Graph.empty]

/-- C10 witness: a Group with identity but no group identifier. -/
theorem C10_group_missing_groupid_exc_witness :
    parse_groups Graph.empty
        (XmlElem.mk "Pathway" [("Name", "t")]
          [XmlElem.mk (GPML ++ "Group") [("GraphId", "g")] []]) = .exc ∧
    parse_gpml (XmlElem.mk "Pathway" [("Name", "t")]
        [XmlElem.mk (GPML ++ "Group") [("GraphId", "g")] []]) "" = .exception :=
  C10_group_missing_groupid_exc Graph.empty "Pathway" [("Name", "t")]
    [("GraphId", "g")] "g" [] "" rfl rfl

/-! ## Claim C4 -/

theorem nodesGid_fst (g : Graph) : (nodesGid g).map Prod.fst = nodeIds g := by
  simp [nodesGid, nodeIds, List.map_map]

theorem mem_nodeIds_of_nodesGid {g : Graph} {x : String} {o : Option String}
    (h : (x, o) ∈ nodesGid g) : x ∈ nodeIds g := by
  rw [← nodesGid_fst]
  exact List.mem_map.2 ⟨(x, o), h, rfl⟩

theorem exists_nodesGid_of_mem {g : Graph} {x : String} (h : x ∈ nodeIds g) :
    ∃ o, (x, o) ∈ nodesGid g := by
  rw [← nodesGid_fst] at h
  obtain ⟨q, hq, hqx⟩ := List.mem_map.1 h
  refine ⟨q.2, ?_⟩
  rw [← hqx]
  exact hq

theorem nodesGid_setNodeAttr_other {k : String} (hk : k ≠ "group_id")
    (g : Graph) (n v : String) : nodesGid (setNodeAttr g n k v) = nodesGid g := by
  rcases g with ⟨ns, es⟩
  simp only [nodesGid, setNodeAttr, List.map_map]
  apply List.map_congr_left
  intro p _
  by_cases hp : p.1 = n
  · simp only [Function.comp]
    rw [if_pos hp]
    simp [lookupA_snoc, fun h : k = "group_id" => hk h]
  · simp only [Function.comp]
    rw [if_neg hp]

theorem nodesGid_setNodeAttr_group_id (g : Graph) (n v : String) :
    nodesGid (setNodeAttr g n "group_id" v) =
      (nodesGid g).map (fun q => if q.1 = n then (q.1, some v) else q) := by
  rcases g with ⟨ns, es⟩
  simp only [nodesGid, setNodeAttr, List.map_map]
  apply List.map_congr_left
  intro p _
  by_cases hp : p.1 = n
  · simp only [Function.comp]
    rw [if_pos hp]
    simp [lookupA_snoc, hp]
  · simp only [Function.comp]
    rw [if_neg hp]
    simp [hp]

theorem nodesGid_add_node {a : AttrMap} (ha : lookupA a "group_id" = none)
    (g : Graph) (n : String) :
    nodesGid (add_node g n a) =
      if containsNode g n then nodesGid g else nodesGid g ++ [(n, none)] := by
  unfold add_node
  by_cases h : containsNode g n
  · rw [if_pos h, if_pos h]
    rcases g with ⟨ns, es⟩
    simp only [nodesGid, List.map_map]
    apply List.map_congr_left
    intro p _
    by_cases hp : p.1 = n
    · simp only [Function.comp]
      rw [if_pos hp, lookupA_append_of_none _ ha]
    · simp only [Function.comp]
      rw [if_neg hp]
  · rw [if_neg h, if_neg h]
    simp [nodesGid, ha]

theorem forall2_map_gid {ks : List String} (hks : "group_id" ∉ ks)
    {l1 l2 : List (String × AttrMap)}
    (hf : List.Forall₂
      (fun p q => p.1 = q.1 ∧ (∃ ext, q.2 = p.2 ++ ext) ∧
        ∀ k, k ∉ ks → lookupA q.2 k = lookupA p.2 k) l1 l2) :
    l2.map (fun p => (p.1, lookupA p.2 "group_id")) =
      l1.map (fun p => (p.1, lookupA p.2 "group_id")) := by
  induction hf with
  | nil => rfl
  | @cons p q t1 t2 hpq _ ih =>
    simp only [List.map_cons, ih, List.cons.injEq]
    exact ⟨by rw [hpq.1, hpq.2.2 "group_id" hks], trivial⟩

theorem Sets_nodesGid {ks : List String} (hks : "group_id" ∉ ks) {g g' : Graph}
    (h : Sets ks g g') : nodesGid g' = nodesGid g :=
  forall2_map_gid hks h.2

theorem condSet_attrsOf_ne (g : Graph) (gid key : String) (o : Option String)
    {n : String} (hn : n ≠ gid) : attrsOf (condSet g gid key o) n = attrsOf g n := by
  cases o with
  | none => rfl
  | some v => exact attrsOf_setNodeAttr_ne g gid key v n hn

theorem applyGraphics_attrsOf_ne (g : Graph) (gid : String) (node : AttrMap)
    {n : String} (hn : n ≠ gid) : attrsOf (applyGraphics g gid node) n = attrsOf g n := by
  unfold applyGraphics
  cases lookupA node "FillColor" <;>
    simp only [attrsOf_setNodeAttr_ne _ _ _ _ _ hn, condSet_attrsOf_ne _ _ _ _ hn]

theorem update_ok_attrsOf_ne {g : Graph} {node : AttrMap} {gid : String}
    (hG : lookupA node "GraphId" = some gid) {g' : Graph}
    (hok : update_node_graphics g node = .ok g') {n : String} (hn : n ≠ gid) :
    attrsOf g' n = attrsOf g n := by
  cases hx : lookupA node "CenterX" with
  | none =>
    rw [update_eq_err g hG (Or.inl hx)] at hok
    exact absurd hok (by simp)
  | some cx =>
    cases hy : lookupA node "CenterY" with
    | none =>
      rw [update_eq_err g hG (Or.inr hy)] at hok
      exact absurd hok (by simp)
    | some cy =>
      rw [update_eq_ok g hG hx hy] at hok
      injection hok with hh
      subst hh
      rw [applyGraphics_attrsOf_ne _ _ _ hn, attrsOf_setNodeAttr_ne _ _ _ _ _ hn,
        attrsOf_setNodeAttr_ne _ _ _ _ _ hn]

theorem attachParent_attrsOf_ne (g : Graph) (gid gref : String) {n : String}
    (hn : n ≠ gid) : attrsOf (attachParent g gid gref) n = attrsOf g n := by
  unfold attachParent
  generalize g.nodes = l
  induction l generalizing g with
  | nil => rfl
  | cons p t ih =>
    rw [List.foldl_cons]
    by_cases hp : lookupA p.2 "group_id" = some gref
    · rw [if_pos hp, ih (setNodeAttr g gid "parent" p.1),
        attrsOf_setNodeAttr_ne _ _ _ _ _ hn]
    · rw [if_neg hp, ih g]

theorem datanodeFinish_attrsOf_ne (g : Graph) (gid : String) (node : AttrMap)
    {n : String} (hn : n ≠ gid) : attrsOf (datanodeFinish g gid node) n = attrsOf g n := by
  unfold datanodeFinish
  cases lookupA node "GroupRef" with
  | none => rw [attrsOf_setNodeAttr_ne _ _ _ _ _ hn, attrsOf_setNodeAttr_ne _ _ _ _ _ hn]
  | some gref =>
    rw [attachParent_attrsOf_ne _ _ _ hn, attrsOf_setNodeAttr_ne _ _ _ _ _ hn,
      attrsOf_setNodeAttr_ne _ _ _ _ _ hn]

theorem foldl_parent_none {d r : String} :
    ∀ (l : List (String × AttrMap)) (acc : Graph),
      (∀ p, p ∈ l → lookupA p.2 "group_id" ≠ some r) →
      lookupA (attrsOf (l.foldl (fun acc p =>
          if lookupA p.2 "group_id" = some r then setNodeAttr acc d "parent" p.1 else acc)
        acc) d) "parent" = lookupA (attrsOf acc d) "parent" := by
  intro l
  induction l with
  | nil => exact fun acc _ => rfl
  | cons p t ih =>
    intro acc hno
    rw [List.foldl_cons, if_neg (hno p (List.mem_cons_self _ _))]
    exact ih acc (fun q hq => hno q (List.mem_cons_of_mem _ hq))

theorem foldl_parent_some {d r gid : String} :
    ∀ (l : List (String × AttrMap)) (acc : Graph),
      (∀ p, p ∈ l → lookupA p.2 "group_id" = some r → p.1 = gid) →
      (∃ p, p ∈ l ∧ lookupA p.2 "group_id" = some r) →
      d ∈ nodeIds acc →
      lookupA (attrsOf (l.foldl (fun acc p =>
          if lookupA p.2 "group_id" = some r then setNodeAttr acc d "parent" p.1 else acc)
        acc) d) "parent" = some gid := by
  intro l
  induction l with
  | nil =>
    rintro acc - ⟨p, hp, -⟩ -
    exact absurd hp (by simp)
  | cons p t ih =>
    intro acc hall hex hd
    rw [List.foldl_cons]
    by_cases hp : lookupA p.2 "group_id" = some r
    · rw [if_pos hp]
      have hpg : p.1 = gid := hall p (List.mem_cons_self _ _) hp
      have hd' : d ∈ nodeIds (setNodeAttr acc d "parent" p.1) := by
        rw [nodeIds_setNodeAttr]
        exact hd
      by_cases hex2 : ∃ q, q ∈ t ∧ lookupA q.2 "group_id" = some r
      · exact ih _ (fun q hq => hall q (List.mem_cons_of_mem _ hq)) hex2 hd'
      · push_neg at hex2
        rw [foldl_parent_none t _ hex2, attrsOf_setNodeAttr_self _ _ _ _ hd,
          lookupA_snoc, hpg]
        simp
    · rw [if_neg hp]
      obtain ⟨q, hq, hqr⟩ := hex
      rcases List.mem_cons.1 hq with rfl | hq'
      · exact absurd hqr hp
      · exact ih acc (fun q hq => hall q (List.mem_cons_of_mem _ hq)) ⟨q, hq', hqr⟩ hd

theorem attachParent_parent {g : Graph} {d gid r : String}
    (hInv : ∀ q, q ∈ nodesGid g → q.2 = some r → q.1 = gid)
    (hEx : (gid, some r) ∈ nodesGid g)
    (hd : d ∈ nodeIds g) :
    lookupA (attrsOf (attachParent g d r) d) "parent" = some gid := by
  unfold attachParent
  have hall : ∀ p, p ∈ g.nodes → lookupA p.2 "group_id" = some r → p.1 = gid := by
    intro p hp hpr
    exact hInv (p.1, lookupA p.2 "group_id") (List.mem_map.2 ⟨p, hp, rfl⟩) (by rw [hpr])
  have hex : ∃ p, p ∈ g.nodes ∧ lookupA p.2 "group_id" = some r := by
    obtain ⟨p, hp, hpq⟩ := List.mem_map.1 hEx
    refine ⟨p, hp, ?_⟩
    have := congrArg Prod.snd hpq
    simpa using this
  exact foldl_parent_some g.nodes g hall hex hd

theorem nodesGid_groupSetup (g : Graph) (gid grp : String) :
    nodesGid (groupSetup g gid grp) =
      (nodesGid g).map (fun q => if q.1 = gid then (q.1, some grp) else q) := by
  unfold groupSetup
  rw [nodesGid_setNodeAttr_other (show "border_color" ≠ "group_id" by decide),
    nodesGid_setNodeAttr_other (show "background_color" ≠ "group_id" by decide),
    nodesGid_setNodeAttr_group_id]

theorem parse_groups_go_gid {gid r : String} : ∀ {xs : List XmlElem},
    (∀ e, e ∈ xs → lookupA e.attrib "GroupId" = some r →
      lookupA e.attrib "GraphId" = some gid) →
    (∀ e, e ∈ xs → lookupA e.attrib "GraphId" = some gid →
      lookupA e.attrib "GroupId" = some r) →
    ∀ {g g' : Graph}, parse_groups_go g xs = .ok g' →
      (∀ q, q ∈ nodesGid g → q.2 = some r → q.1 = gid) →
      ((gid, some r) ∈ nodesGid g ∨ ∃ e, e ∈ xs ∧ lookupA e.attrib "GraphId" = some gid) →
      (∀ q, q ∈ nodesGid g' → q.2 = some r → q.1 = gid) ∧ (gid, some r) ∈ nodesGid g' := by
  intro xs
  induction xs with
  | nil =>
    intro _ _ g g' h hInv hEx
    simp only [parse_groups_go] at h
    injection h with hh
    subst hh
    refine ⟨hInv, ?_⟩
    rcases hEx with hEx | ⟨e, he, -⟩
    · exact hEx
    · exact absurd he (by simp)
  | cons gr0 rest ih =>
    intro Hu1 Hu2 g g' h hInv hEx
    cases hG0 : lookupA gr0.attrib "GraphId" with
    | none =>
      simp only [parse_groups_go, hG0] at h
      exact absurd h (by simp)
    | some g0id =>
      cases hGrp0 : lookupA gr0.attrib "GroupId" with
      | none =>
        simp only [parse_groups_go, hG0, hGrp0] at h
        exact absurd h (by simp)
      | some grp0 =>
        simp only [parse_groups_go, hG0, hGrp0] at h
        have hA : nodesGid (add_node g g0id []) =
            (if containsNode g g0id then nodesGid g else nodesGid g ++ [(g0id, none)]) :=
          nodesGid_add_node (show lookupA ([] : AttrMap) "group_id" = none from rfl) g g0id
        have hB : nodesGid (groupSetup (add_node g g0id []) g0id grp0) =
            (nodesGid (add_node g g0id [])).map
              (fun q => if q.1 = g0id then (q.1, some grp0) else q) :=
          nodesGid_groupSetup _ _ _
        have hInvA : ∀ q, q ∈ nodesGid (add_node g g0id []) → q.2 = some r → q.1 = gid := by
          rw [hA]
          split
          · exact hInv
          · intro q hq hqr
            rcases List.mem_append.1 hq with hq | hq
            · exact hInv q hq hqr
            · have hq' : q = (g0id, none) := by simpa using hq
              rw [hq'] at hqr
              exact absurd hqr (by simp)
        have hInvB : ∀ q, q ∈ nodesGid (groupSetup (add_node g g0id []) g0id grp0) →
            q.2 = some r → q.1 = gid := by
          rw [hB]
          intro q hq hqr
          obtain ⟨q0, hq0, hq0q⟩ := List.mem_map.1 hq
          by_cases hq01 : q0.1 = g0id
          · rw [if_pos hq01] at hq0q
            rw [← hq0q] at hqr ⊢
            have hgr : grp0 = r := by simpa using hqr
            have hgg := Hu1 gr0 (List.mem_cons_self _ _) (by rw [hGrp0, hgr])
            rw [hG0] at hgg
            injection hgg with hh
            rw [hq01]
            exact hh
          · rw [if_neg hq01] at hq0q
            rw [← hq0q] at hqr ⊢
            exact hInvA q0 hq0 hqr
        have hExB : (gid, some r) ∈ nodesGid (groupSetup (add_node g g0id []) g0id grp0) ∨
            ∃ e, e ∈ rest ∧ lookupA e.attrib "GraphId" = some gid := by
          rcases hEx with hEx | ⟨e, he, hge⟩
          · left
            have hmemA : (gid, some r) ∈ nodesGid (add_node g g0id []) := by
              rw [hA]
              split
              · exact hEx
              · exact List.mem_append_left _ hEx
            rw [hB]
            by_cases hg0 : gid = g0id
            · have hgrp0r : grp0 = r := by
                have hgg := Hu2 gr0 (List.mem_cons_self _ _) (by rw [hG0, hg0])
                rw [hGrp0] at hgg
                exact Option.some.inj hgg
              refine List.mem_map.2 ⟨(gid, some r), hmemA, ?_⟩
              dsimp only
              rw [if_pos hg0, hgrp0r]
            · exact List.mem_map.2 ⟨(gid, some r), hmemA, by dsimp only; rw [if_neg hg0]⟩
          · rcases List.mem_cons.1 he with he0 | he'
            · left
              rw [he0] at hge
              have hg0gid : g0id = gid := by
                rw [hG0] at hge
                exact Option.some.inj hge
              have hgrp0r : grp0 = r := by
                have hgg := Hu2 gr0 (List.mem_cons_self _ _) hge
                rw [hGrp0] at hgg
                exact Option.some.inj hgg
              have hmem : g0id ∈ nodeIds (add_node g g0id []) :=
                (mem_nodeIds_add_node g g0id []).2 (Or.inr rfl)
              obtain ⟨o, ho⟩ := exists_nodesGid_of_mem hmem
              rw [hB]
              refine List.mem_map.2 ⟨(g0id, o), ho, ?_⟩
              dsimp only
              rw [if_pos rfl, hg0gid, hgrp0r]
            · exact Or.inr ⟨e, he', hge⟩
        exact ih (fun e he => Hu1 e (List.mem_cons_of_mem _ he))
          (fun e he => Hu2 e (List.mem_cons_of_mem _ he)) h hInvB hExB

theorem gidInv_add_node {r gid : String} {a : AttrMap}
    (ha : lookupA a "group_id" = none) {g : Graph} (n : String)
    (hInv : ∀ q, q ∈ nodesGid g → q.2 = some r → q.1 = gid) :
    ∀ q, q ∈ nodesGid (add_node g n a) → q.2 = some r → q.1 = gid := by
  rw [nodesGid_add_node ha]
  split
  · exact hInv
  · intro q hq hqr
    rcases List.mem_append.1 hq with hq | hq
    · exact hInv q hq hqr
    · have hq' : q = (n, none) := by simpa using hq
      rw [hq'] at hqr
      exact absurd hqr (by simp)

theorem gidEx_add_node {r gid : String} {a : AttrMap}
    (ha : lookupA a "group_id" = none) {g : Graph} (n : String)
    (hEx : (gid, some r) ∈ nodesGid g) :
    (gid, some r) ∈ nodesGid (add_node g n a) := by
  rw [nodesGid_add_node ha]
  split
  · exact hEx
  · exact List.mem_append_left _ hEx

theorem parse_shapes_go_gid {r gid : String} : ∀ {xs : List AttrMap} {g g' : Graph},
    parse_shapes_go g xs = .ok g' →
    (∀ q, q ∈ nodesGid g → q.2 = some r → q.1 = gid) →
    (gid, some r) ∈ nodesGid g →
    (∀ q, q ∈ nodesGid g' → q.2 = some r → q.1 = gid) ∧ (gid, some r) ∈ nodesGid g' := by
  intro xs
  induction xs with
  | nil =>
    intro g g' h hInv hEx
    simp only [parse_shapes_go] at h
    injection h with hh
    subst hh
    exact ⟨hInv, hEx⟩
  | cons node rest ih =>
    intro g g' h hInv hEx
    simp only [parse_shapes_go] at h
    split at h
    · exact absurd h (by simp)
    · rename_i gid0 hG
      have hInvA := gidInv_add_node
        (show lookupA ([] : AttrMap) "group_id" = none from rfl) gid0 hInv
      have hExA := gidEx_add_node
        (show lookupA ([] : AttrMap) "group_id" = none from rfl) gid0 hEx
      split at h
      · exact absurd h (by simp)
      · exact absurd h (by simp)
      · rename_i g2 hupd
        have hN2 : nodesGid g2 = nodesGid (add_node g gid0 []) :=
          Sets_nodesGid (show "group_id" ∉ graphicsKeys by decide)
            (update_node_graphics_ok hG hupd).1
        have hInv2 : ∀ q, q ∈ nodesGid g2 → q.2 = some r → q.1 = gid := by
          rw [hN2]
          exact hInvA
        have hEx2 : (gid, some r) ∈ nodesGid g2 := by
          rw [hN2]
          exact hExA
        split at h
        · injection h with hh
          subst hh
          exact ⟨hInv2, hEx2⟩
        · split at h
          · exact absurd h (by simp)
          · exact absurd h (by simp)
          · rename_i g3 hss
            have hN3 : nodesGid g3 = nodesGid g2 :=
              Sets_nodesGid (show "group_id" ∉ shapesKeys by decide) (shapeStep_ok_sets hss)
            have hN4 : nodesGid (if lookupA node "key" =
                  some "org.pathvisio.DoubleLineProperty" then
                  setNodeAttr g3 gid0 "border_style" "double" else g3) = nodesGid g3 := by
              split
              · exact nodesGid_setNodeAttr_other (show "border_style" ≠ "group_id" by decide)
                  _ _ _
              · rfl
            refine ih h ?_ ?_
            · rw [hN4, hN3]
              exact hInv2
            · rw [hN4, hN3]
              exact hEx2

theorem parse_datanodes_go_parent {r gid d : String} : ∀ {xs : List AttrMap} {g g' : Graph},
    parse_datanodes_go g xs = .ok g' →
    "Error" ∉ nodeIds g' →
    (∀ q, q ∈ nodesGid g → q.2 = some r → q.1 = gid) →
    (gid, some r) ∈ nodesGid g →
    (∀ m, m ∈ xs → lookupA m "GraphId" = some d → lookupA m "GroupRef" = some r) →
    ((∃ m, m ∈ xs ∧ lookupA m "GraphId" = some d) ∨
      lookupA (attrsOf g d) "parent" = some gid) →
    lookupA (attrsOf g' d) "parent" = some gid := by
  intro xs
  induction xs with
  | nil =>
    intro g g' h _ _ _ _ hDis
    simp only [parse_datanodes_go] at h
    injection h with hh
    subst hh
    rcases hDis with ⟨m, hm, -⟩ | hPar
    · exact absurd hm (by simp)
    · exact hPar
  | cons node rest ih =>
    intro g g' h hErr hInv hEx hAll hDis
    simp only [parse_datanodes_go] at h
    split at h
    · exact absurd h (by simp)
    · rename_i gid0 hG
      have hInvA := gidInv_add_node
        (show lookupA [("shape", "rectangle"), ("border_width", "2")] "group_id" = none
          by decide) gid0 hInv
      have hExA := gidEx_add_node
        (show lookupA [("shape", "rectangle"), ("border_width", "2")] "group_id" = none
          by decide) gid0 hEx
      split at h
      · exact absurd h (by simp)
      · exact absurd h (by simp)
      · rename_i g2 hupd
        have hSets2 :=
          (update_node_graphics_ok hG hupd).1
        have hN2 : nodesGid g2 =
            nodesGid (add_node g gid0 [("shape", "rectangle"), ("border_width", "2")]) :=
          Sets_nodesGid (show "group_id" ∉ graphicsKeys by decide) hSets2
        have hInv2 : ∀ q, q ∈ nodesGid g2 → q.2 = some r → q.1 = gid := by
          rw [hN2]
          exact hInvA
        have hEx2 : (gid, some r) ∈ nodesGid g2 := by
          rw [hN2]
          exact hExA
        split at h
        · rename_i hc
          injection h with hh
          subst hh
          exact absurd (containsNode_iff.1 hc) hErr
        · have hNF : nodesGid (datanodeFinish g2 gid0 node) = nodesGid g2 :=
            Sets_nodesGid (show "group_id" ∉ datanodesKeys by decide)
              (datanodeFinish_sets g2 gid0 node)
          have hInvF : ∀ q, q ∈ nodesGid (datanodeFinish g2 gid0 node) →
              q.2 = some r → q.1 = gid := by
            rw [hNF]
            exact hInv2
          have hExF : (gid, some r) ∈ nodesGid (datanodeFinish g2 gid0 node) := by
            rw [hNF]
            exact hEx2
          have hAllRest : ∀ m, m ∈ rest → lookupA m "GraphId" = some d →
              lookupA m "GroupRef" = some r :=
            fun m hm => hAll m (List.mem_cons_of_mem _ hm)
          by_cases hdd : gid0 = d
          · have hGR : lookupA node "GroupRef" = some r :=
              hAll node (List.mem_cons_self _ _) (by rw [hG, hdd])
            have hd2 : gid0 ∈ nodeIds g2 := by
              rw [Sets_nodeIds hSets2]
              exact (mem_nodeIds_add_node _ _ _).2 (Or.inr rfl)
            have hdS : gid0 ∈ nodeIds (setNodeAttr
                (setNodeAttr g2 gid0 "background_color" "white")
                gid0 "background_opacity" "0") := by
              rw [nodeIds_setNodeAttr, nodeIds_setNodeAttr]
              exact hd2
            have hNS : nodesGid (setNodeAttr
                (setNodeAttr g2 gid0 "background_color" "white")
                gid0 "background_opacity" "0") = nodesGid g2 := by
              rw [nodesGid_setNodeAttr_other (show "background_opacity" ≠ "group_id" by decide),
                nodesGid_setNodeAttr_other (show "background_color" ≠ "group_id" by decide)]
            have hPar : lookupA (attrsOf (datanodeFinish g2 gid0 node) gid0) "parent" =
                some gid := by
              simp only [datanodeFinish, hGR]
              exact attachParent_parent
                (by rw [hNS]; exact hInv2) (by rw [hNS]; exact hEx2) hdS
            refine ih h hErr hInvF hExF hAllRest (Or.inr ?_)
            rw [← hdd]
            exact hPar
          · have hne : d ≠ gid0 := fun hh => hdd hh.symm
            have hKeep : attrsOf (datanodeFinish g2 gid0 node) d = attrsOf g d := by
              rw [datanodeFinish_attrsOf_ne _ _ _ hne,
                update_ok_attrsOf_ne hG hupd hne,
                attrsOf_add_node_ne _ _ _ _ hne]
            rcases hDis with ⟨m, hm, hmd⟩ | hPar
            · rcases List.mem_cons.1 hm with he0 | hm'
              · rw [he0, hG] at hmd
                exact absurd (Option.some.inj hmd) hdd
              · exact ih h hErr hInvF hExF hAllRest (Or.inl ⟨m, hm', hmd⟩)
            · refine ih h hErr hInvF hExF hAllRest (Or.inr ?_)
              rw [hKeep]
              exact hPar

/-- C4 counterexample: in `c4doc` two Groups (`g1` then `g2`) both carry the
group identifier `r`, and the DataNode `d` has `GroupRef=r`.  The `GroupRef`
scan of `parse_datanodes` walks every node and re-sets the parent at every
match, so the node stored last (`g2`) wins: the claim's containment
relation fails for the Group `g1` even though `g1` carries identity `g1`
and group-identifier `r` and is followed by a matching DataNode. -/
theorem C4_counterexample :
    (match parse_gpml c4doc "" with
     | .success g _ _ =>
        lookupA (attrsOf g "d") "parent" = some "g2" ∧
        ¬ lookupA (attrsOf g "d") "parent" = some "g1"
     | _ => False) := by
  exact ⟨rfl, by decide⟩

/-- C4 (amended): when the Group with identity `gid` is the *unique* carrier
of the group identifier `r` among the document's Group elements (no other
Group shares `r`, and no other Group shares `gid`), every DataNode whose
flattened attributes give `GraphId = d` carries `GroupRef = r`, and at least
one such DataNode exists, a successful translation stores `parent = gid` on
node `d`: the DataNode is attached as a child of that Group's node.  The
earlier stages make the group node carry `group_id = r`, the `GroupRef`
scan can then only ever match that node, and the Labels and Interactions
stages never write the `parent` key. -/
theorem C4_amended_group_parent {root : XmlElem} {title : String} {g : Graph}
    {l : List LayoutEntry} {t : String} {grp : XmlElem} {gid r d : String}
    (hsucc : parse_gpml root title = .success g l t)
    (hmem : grp ∈ findall root "Group")
    (hgid : lookupA grp.attrib "GraphId" = some gid)
    (hu1 : ∀ e, e ∈ findall root "Group" → lookupA e.attrib "GroupId" = some r →
      lookupA e.attrib "GraphId" = some gid)
    (hu2 : ∀ e, e ∈ findall root "Group" → lookupA e.attrib "GraphId" = some gid →
      lookupA e.attrib "GroupId" = some r)
    (hmd : ∃ m, m ∈ extract_attributes (findall root "DataNode") ∧
      lookupA m "GraphId" = some d)
    (hdr : ∀ m, m ∈ extract_attributes (findall root "DataNode") →
      lookupA m "GraphId" = some d → lookupA m "GroupRef" = some r) :
    lookupA (attrsOf g d) "parent" = some gid := by
  obtain ⟨g1, g2, g3, g4, hok1, hE1, hok2, hE2, hok3, hE3, hok4, hE4,
    hpost, he1, he2, he3, he4, hl⟩ := stages_of_success hsucc
  have hInv0 : ∀ q, q ∈ nodesGid Graph.empty → q.2 = some r → q.1 = gid := by
    intro q hq
    exact absurd hq (by simp [nodesGid, Graph.empty])
  obtain ⟨hInv1, hEx1⟩ :=
    parse_groups_go_gid hu1 hu2 hok1 hInv0 (Or.inr ⟨grp, hmem, hgid⟩)
  obtain ⟨hInv2, hEx2⟩ := parse_shapes_go_gid hok2 hInv1 hEx1
  have hPar3 : lookupA (attrsOf g3 d) "parent" = some gid :=
    parse_datanodes_go_parent hok3 hE3 hInv2 hEx2 hdr (Or.inl hmd)
  have hPar4 : lookupA (attrsOf g4 d) "parent" = some gid := by
    rw [(parse_labels_go_ok hok4 hE4).1.2.2.2 d "parent" (by decide)]
    exact hPar3
  rw [hpost.2.1.2.2.2 d "parent" (by simp)]
  exact hPar4

/-- C4 witness: on `c4okdoc` — a unique Group `g1` carrying `r`, followed by
the DataNode `d` with `GroupRef=r` — the translation succeeds and the
amended theorem yields `parent = g1` on node `d`. -/
theorem C4_amended_group_parent_witness :
    (match parse_gpml c4okdoc "" with
     | .success g _ _ => lookupA (attrsOf g "d") "parent" = some "g1"
     | _ => False) := by
  obtain ⟨g0, l0, t0, hs⟩ :
      ∃ g0 l0 t0, parse_gpml c4okdoc "" = .success g0 l0 t0 := ⟨_, _, _, rfl⟩
  rw [hs]
  have hfg : findall c4okdoc "Group" =
      [XmlElem.mk (GPML ++ "Group") [("GraphId", "g1"), ("GroupId", "r")] []] := rfl
  have hfd : extract_attributes (findall c4okdoc "DataNode") =
      [[("GraphId", "d"), ("GroupRef", "r"), ("CenterX", "5"), ("CenterY", "6")]] := rfl
  show lookupA (attrsOf g0 "d") "parent" = some "g1"
  refine @C4_amended_group_parent c4okdoc "" g0 l0 t0
    (XmlElem.mk (GPML ++ "Group") [("GraphId", "g1"), ("GroupId", "r")] [])
    "g1" "r" "d" hs ?_ ?_ ?_ ?_ ?_ ?_
  · rw [hfg]
    exact List.mem_singleton.2 rfl
  · rfl
  · intro e he h1
    have he' : e = XmlElem.mk (GPML ++ "Group") [("GraphId", "g1"), ("GroupId", "r")] [] := by
      rw [hfg] at he
      simpa using he
    rw [he']
    rfl
  · intro e he h1
    have he' : e = XmlElem.mk (GPML ++ "Group") [("GraphId", "g1"), ("GroupId", "r")] [] := by
      rw [hfg] at he
      simpa using he
    rw [he']
    rfl
  · refine ⟨[("GraphId", "d"), ("GroupRef", "r"), ("CenterX", "5"), ("CenterY", "6")], ?_, rfl⟩
    rw [hfd]
    exact List.mem_singleton.2 rfl
  · intro m hm h1
    have hm' : m = [("GraphId", "d"), ("GroupRef", "r"), ("CenterX", "5"), ("CenterY", "6")] := by
      rw [hfd] at hm
      simpa using hm
    rw [hm']
    rfl
